import Mathlib

/-!
Shallow embedding of the scheduler and kubelet core of kubernetes-0.5
(pkg/scheduler/generic_scheduler.go, the scheduler driver, pkg/kubelet/kubelet.go
and the pod cache), together with theorems settling the specification claims.

Go `int` values are modelled as `Int`; Go slices and maps as `List`s (maps as
association lists looked up on the first matching key, mirroring unique-key Go
maps); Go `nil`-able errors as `Option`/`Except`.
-/

namespace K8s

/-! ## Basic helpers -/

/-- First-match lookup in an association list, modelling a Go `map[string]string`. -/
def lookup (m : List (String × String)) (k : String) : Option String :=
  (m.find? (fun kv => kv.1 == k)).map (fun kv => kv.2)

/-- Decimal digit accumulator for `atoi`. -/
def parseDigitsAux : List Char → Nat → Option Nat
  | [], acc => some acc
  | c :: rest, acc =>
    if c.isDigit then parseDigitsAux rest (acc * 10 + (c.toNat - '0'.toNat))
    else none

/-- A non-empty all-digit character run, as a number. -/
def parseDigits? (cs : List Char) : Option Nat :=
  if cs.isEmpty then none else parseDigitsAux cs 0

/-- Go `strconv.Atoi` as used by the scheduler: an optional sign followed by at
least one digit; on any parse error the returned value is 0 (the caller
discards the error). -/
def atoi (s : String) : Int :=
  match s.data with
  | '-' :: rest =>
    match parseDigits? rest with
    | some n => -(n : Int)
    | none => 0
  | '+' :: rest =>
    match parseDigits? rest with
    | some n => (n : Int)
    | none => 0
  | cs =>
    match parseDigits? cs with
    | some n => (n : Int)
    | none => 0

/-- The character-list worker for `splitCommas`. -/
def splitCommasAux : List Char → List (List Char)
  | [] => [[]]
  | c :: rest =>
    let r := splitCommasAux rest
    if c == ',' then [] :: r
    else
      match r with
      | [] => [[c]]
      | h :: t => (c :: h) :: t

/-- Go `strings.Split(s, ",")`: the comma-separated fields of `s`; the empty
string yields one empty field. -/
def splitCommas (s : String) : List String :=
  (splitCommasAux s.data).map (fun cs => String.mk cs)

/-! ## Data model (pkg/api types, restricted to the fields the core reads) -/

/-- Modelled from the spec: `Minion.Capacity` mapping
{CPU: float cores, Memory: bytes, Core: integer cores, CpuNode: NUMA-node count,
Disk: GB}; the `pkg/resources` accessors are not in the source tree.  Each field
is `none` when the key is absent.  The float-valued CPU capacity is stored
directly as `int(GetFloatResource(capacity, CPU, 0) * 1000)`, the only form the
scheduler consumes it in. -/
structure Capacity where
  cpuMilli : Option Int
  memory : Option Int
  core : Option Int
  cpuNode : Option Int
  disk : Option Int
deriving DecidableEq, Repr

/-- Modelled from the spec: `resources.GetIntegerResource(capacity, key, default)`
returns the stored value, or the default when the key is absent. -/
def getIntegerResource (v : Option Int) (dflt : Int) : Int := v.getD dflt

structure VM where
  address : String
  gateway : String
  vlanID : Int
deriving DecidableEq, Repr

structure MinionSpec where
  capacity : Capacity
  vms : List VM
deriving DecidableEq, Repr

structure Minion where
  name : String
  labels : List (String × String)
  spec : MinionSpec
deriving DecidableEq, Repr

structure Network where
  address : String
  gateway : String
  bridge : String
  mode : String
deriving DecidableEq, Repr

def emptyNetwork : Network := ⟨"", "", "", ""⟩

/-- api.PodNetworkModeBridge -/
def PodNetworkModeBridge : String := "bridge"

/-- api.PodNetworkModeHost -/
def PodNetworkModeHost : String := "host"

structure Port where
  containerPort : Int
  hostPort : Int
  protocol : String
deriving DecidableEq, Repr

structure Container where
  name : String
  image : String
  cpu : Int      -- MilliCPU request
  memory : Int
  core : Int
  disk : Int
  ports : List Port
deriving DecidableEq, Repr

/-- api.RestartPolicy: three optional pointer fields; a `true` flag models a
non-nil pointer. -/
structure RestartPolicy where
  always : Bool
  onFailure : Bool
  never : Bool
deriving DecidableEq, Repr

structure PodSpec where
  containers : List Container
  nodeSelector : List (String × String)
  networkMode : String
  restartPolicy : RestartPolicy
deriving DecidableEq, Repr

inductive PodPhase where
  | pending
  | running
  | failed
deriving DecidableEq, Repr

/-- api.ContainerStatus, restricted to what `getPhase` and the pod cache read:
`running` models `State.Running != nil`, `terminated` models
`State.Termination != nil`. -/
structure ContainerStatus where
  running : Bool
  terminated : Bool
  podIP : String
deriving DecidableEq, Repr

/-- api.PodInfo : map[string]ContainerStatus -/
def PodInfo := List (String × ContainerStatus)
deriving instance DecidableEq for PodInfo
deriving instance DecidableEq for Except

def lookupInfo (info : PodInfo) (k : String) : Option ContainerStatus :=
  (List.find? (fun kv => kv.1 == k) info).map (fun kv => kv.2)

structure PodStatus where
  phase : PodPhase
  host : String
  podIP : String
  hostIP : String
  info : Option PodInfo
  schedulerFailureCount : Int
  cpuSet : String
  network : Network
deriving DecidableEq

structure Pod where
  name : String
  ns : String    -- Namespace (a Lean keyword, hence the short field name)
  spec : PodSpec
  status : PodStatus
deriving DecidableEq

structure SelectedMachine where
  name : String
  network : Network
  cpuSet : String
deriving DecidableEq, Repr

structure Binding where
  bindingNs : String
  podID : String
  host : String
  network : Network
  cpuSet : String
deriving DecidableEq, Repr

/-- `MapPodsToMachines` groups the listed pods by `Status.Host`; the group of one
host, in listing order. -/
def mapPodsToMachines (allPods : List Pod) (host : String) : List Pod :=
  allPods.filter (fun p => p.status.host == host)

/-! ## FitPredicates (generic_scheduler.go) -/

structure ResourceRequest where
  milliCPU : Int
  memory : Int
  core : Int
  disk : Int
deriving DecidableEq, Repr

/-- `getResourceRequest`: sums each container's asks. -/
def getResourceRequest (pod : Pod) : ResourceRequest :=
  pod.spec.containers.foldl
    (fun r c =>
      { milliCPU := r.milliCPU + c.cpu
        memory := r.memory + c.memory
        core := r.core + c.core
        disk := r.disk + c.disk })
    ⟨0, 0, 0, 0⟩

/-- `ResourceFit.PodFitsResources`.  `getNodeInfo` stands for the
`NodeInfo.GetNodeInfo` collaborator; `none` is its error return, propagated as
the predicate's error (`Option.none` result). -/
def PodFitsResources (getNodeInfo : String → Option Minion) (pod : Pod)
    (existingPods : List Pod) (node : String) : Option Bool :=
  let podRequest := getResourceRequest pod
  if podRequest.milliCPU == 0 && podRequest.memory == 0 then
    -- no resources requested always fits.
    some true
  else
    match getNodeInfo node with
    | none => none
    | some info =>
      let vmNum := info.spec.vms.length
      if pod.spec.networkMode == PodNetworkModeBridge && vmNum ≤ existingPods.length then
        some false
      else
        let milliCPURequested :=
          (existingPods.map (fun p => (getResourceRequest p).milliCPU)).sum
        let memoryRequested :=
          (existingPods.map (fun p => (getResourceRequest p).memory)).sum
        let coreRequested :=
          (existingPods.map (fun p => (getResourceRequest p).core)).sum
        let diskRequested :=
          (existingPods.map (fun p => (getResourceRequest p).disk)).sum
        let totalMilliCPU := getIntegerResource info.spec.capacity.cpuMilli 0
        let totalMemory := getIntegerResource info.spec.capacity.memory 0
        let totalCore := getIntegerResource info.spec.capacity.core 0
        let totalDisk := getIntegerResource info.spec.capacity.disk 0
        let fitsCPU := totalMilliCPU == 0 || totalMilliCPU - milliCPURequested ≥ podRequest.milliCPU
        let fitsMemory := totalMemory == 0 || totalMemory - memoryRequested ≥ podRequest.memory
        let fitsCore := totalCore == 0 || totalCore - coreRequested ≥ podRequest.core
        let fitsDisk := totalDisk == 0 || totalDisk - diskRequested ≥ podRequest.disk
        some (fitsCPU && fitsMemory && fitsCore && fitsDisk)

/-- `labels.SelectorFromSet(sel).Matches(labels.Set(lbls))`: subset semantics. -/
def selectorMatches (sel lbls : List (String × String)) : Bool :=
  sel.all (fun kv => lookup lbls kv.1 == some kv.2)

/-- `NodeSelector.PodSelectorMatches`. -/
def PodSelectorMatches (getNodeInfo : String → Option Minion) (pod : Pod)
    (_existingPods : List Pod) (node : String) : Option Bool :=
  if pod.spec.nodeSelector.isEmpty then
    some true
  else
    -- check whitelist
    match lookup pod.spec.nodeSelector "whitelist" with
    | some whitelist => some ((splitCommas whitelist).contains node)
    | none =>
      match getNodeInfo node with
      | none => none
      | some minion =>
        -- check blacklist and model
        let active := !(lookup minion.labels "active" == some "false")
        if (lookup pod.spec.nodeSelector "sriov").isNone
            && lookup minion.labels "sriov" == some "1" then
          some false
        else
          some (selectorMatches pod.spec.nodeSelector minion.labels && active)

/-! ## Claim-level predicates for the fit predicates -/

/-- The fit condition claimed for `PodFitsResources`: each resource sum within
capacity (zero capacity meaning unlimited), and a free VM slot for bridge mode. -/
def claimResourceFit (pod : Pod) (existingPods : List Pod) (info : Minion) : Bool :=
  let podRequest := getResourceRequest pod
  let sumCPU := (existingPods.map (fun p => (getResourceRequest p).milliCPU)).sum
  let sumMemory := (existingPods.map (fun p => (getResourceRequest p).memory)).sum
  let sumCore := (existingPods.map (fun p => (getResourceRequest p).core)).sum
  let sumDisk := (existingPods.map (fun p => (getResourceRequest p).disk)).sum
  let totalMilliCPU := getIntegerResource info.spec.capacity.cpuMilli 0
  let totalMemory := getIntegerResource info.spec.capacity.memory 0
  let totalCore := getIntegerResource info.spec.capacity.core 0
  let totalDisk := getIntegerResource info.spec.capacity.disk 0
  (totalMilliCPU == 0 || sumCPU + podRequest.milliCPU ≤ totalMilliCPU) &&
  (totalMemory == 0 || sumMemory + podRequest.memory ≤ totalMemory) &&
  (totalCore == 0 || sumCore + podRequest.core ≤ totalCore) &&
  (totalDisk == 0 || sumDisk + podRequest.disk ≤ totalDisk) &&
  (!(pod.spec.networkMode == PodNetworkModeBridge) ||
    existingPods.length < info.spec.vms.length)

/-- The fit condition claimed for `PodSelectorMatches`: whitelist membership when
the key is present; otherwise subset matching, with `active=false` and
un-requested `sriov=1` nodes disqualified. -/
def claimSelectorFit (pod : Pod) (minion : Minion) (node : String) : Bool :=
  match lookup pod.spec.nodeSelector "whitelist" with
  | some whitelist => (splitCommas whitelist).contains node
  | none =>
    selectorMatches pod.spec.nodeSelector minion.labels &&
    !(lookup minion.labels "active" == some "false") &&
    (!(lookup minion.labels "sriov" == some "1") ||
      !(lookup pod.spec.nodeSelector "sriov").isNone)

/-! ## NumaBitmap (github.com/hustcat/go-lib/bitmap, not in the source tree) -/

/-- Modelled from the spec: a two-level free/used bitmap of physical CPU cores
(§4.1 NumaBitmap); the library `github.com/hustcat/go-lib/bitmap` is not in the
source tree.  `size` is the total core count; `used` records the marked core
indices.  `NewNumaBitmapSize(size, numaNodeNum)` builds an all-free bitmap (the
NUMA-node count is re-supplied at the `Get0BitOffsNuma` query, as at the call
sites). -/
structure NumaBitmap where
  size : Nat
  used : List Nat
deriving DecidableEq, Repr

/-- Modelled from the spec: `SetBit(off, 1)` marks a core used; invalid indices
are silently ignored. -/
def NumaBitmap.setBit (bm : NumaBitmap) (off : Nat) : NumaBitmap :=
  if off < bm.size then { bm with used := off :: bm.used } else bm

/-- Modelled from the spec: `Get0BitOffs()` returns all free core indices in
order. -/
def NumaBitmap.get0BitOffs (bm : NumaBitmap) : List Nat :=
  (List.range bm.size).filter (fun c => !(bm.used.contains c))

/-- Modelled from the spec: row `i` of `Get0BitOffsNuma(numaCount)` — the free
cores of NUMA node `i`, the cores being partitioned evenly across NUMA nodes by
stride (node `i` owns `[i*stride, (i+1)*stride)`, `stride = size / numaCount`). -/
def NumaBitmap.get0BitOffsNumaAt (bm : NumaBitmap) (numaCount i : Nat) : List Nat :=
  let stride := bm.size / numaCount
  (List.range bm.size).filter
    (fun c => decide (i * stride ≤ c) && decide (c < (i + 1) * stride) && !(bm.used.contains c))

/-! ## numaCpuSelect (generic_scheduler.go) -/

/-- Go's `uint(n)` conversion: reduction modulo 2^64. -/
def goUint (n : Int) : Nat := (n % (2 ^ 64 : Int)).toNat

/-- `reqCore`: the summed `Container.Core` requests of the pod. -/
def reqCoreOf (pod : Pod) : Int :=
  pod.spec.containers.foldl (fun acc c => acc + c.core) 0

/-- `GetIntegerResource(minion.Spec.Capacity, Core, 24)`. -/
def nodeCoreNum (m : Minion) : Int := getIntegerResource m.spec.capacity.core 24

/-- `GetIntegerResource(minion.Spec.Capacity, CpuNode, 2)`. -/
def nodeCpuNodeNum (m : Minion) : Int := getIntegerResource m.spec.capacity.cpuNode 2

/-- The "get used cpu cores" loop of `numaCpuSelect`: every comma-separated
entry of each existing pod's `Status.CpuSet` is parsed with `Atoi` (errors
ignored, yielding 0) and marked used. -/
def markUsedCores (bm : NumaBitmap) (pods : List Pod) : NumaBitmap :=
  pods.foldl
    (fun bm pod =>
      (splitCommas pod.status.cpuSet).foldl
        (fun bm c => bm.setBit (goUint (atoi c))) bm)
    bm

/-- The per-minion bitmap built by `numaCpuSelect`: capacity-sized, with the
cores of the pods scheduled on the minion marked used. -/
def nodeCpuMap (allPods : List Pod) (m : Minion) : NumaBitmap :=
  markUsedCores ⟨goUint (nodeCoreNum m), []⟩ (mapPodsToMachines allPods m.name)

/-- The mutable locals of `numaCpuSelect`'s scan loop. -/
structure NumaSelSt where
  numaCpuSet : List String
  numaSelectMinion : Int
  noNumaCpuSet : List String
  noNumaSelectMinion : Int
deriving DecidableEq, Repr

/-- One iteration of `numaCpuSelect`'s minion loop body (`continue` returns the
state unchanged; the `Get0BitOffsNuma` error aborts). -/
def numaSelectStep (allPods : List Pod) (reqCore : Int) (index : Int) (m : Minion)
    (st : NumaSelSt) : Except String NumaSelSt :=
  let cpuMap := nodeCpuMap allPods m
  let freeCores1 := cpuMap.get0BitOffs
  if (freeCores1.length : Int) < reqCore then
    .ok st
  else
    let set1 := (freeCores1.take reqCore.toNat).map (fun o => toString o)
    let st := { st with noNumaCpuSet := set1, noNumaSelectMinion := index }
    let cpuNodeNum := nodeCpuNodeNum m
    if goUint cpuNodeNum == 0 then
      .error "Get0BitOffsNuma failed"
    else
      match (List.range cpuNodeNum.toNat).find?
          (fun i => decide ((cpuMap.get0BitOffsNumaAt (goUint cpuNodeNum) i).length ≥ reqCore)) with
      | some i =>
        let offs := cpuMap.get0BitOffsNumaAt (goUint cpuNodeNum) i
        .ok { st with
                numaCpuSet := st.numaCpuSet ++ (offs.take reqCore.toNat).map (fun o => toString o)
                numaSelectMinion := index }
      | none => .ok st

/-- The minion scan of `numaCpuSelect`: the loop breaks as soon as
`numaCpuSet != nil`. -/
def numaSelectLoop (allPods : List Pod) (reqCore : Int) :
    List Minion → Int → NumaSelSt → Except String NumaSelSt
  | [], _, st => .ok st
  | m :: rest, index, st =>
    match numaSelectStep allPods reqCore index m st with
    | .error e => .error e
    | .ok st' =>
      if st'.numaCpuSet.isEmpty then numaSelectLoop allPods reqCore rest (index + 1) st'
      else .ok st'

/-- `genericScheduler.numaCpuSelect` (the Go `nil` core list is the empty list). -/
def numaCpuSelect (pod : Pod) (allPods : List Pod) (nodes : List Minion) :
    Except String (Int × List String) :=
  let reqCore := reqCoreOf pod
  -- no cpuset
  if reqCore == 0 then .ok (0, [])
  else
    match numaSelectLoop allPods reqCore nodes 0 ⟨[], -1, [], -1⟩ with
    | .error e => .error e
    | .ok st =>
      if st.numaCpuSet.isEmpty then .ok (st.noNumaSelectMinion, st.noNumaCpuSet)
      else .ok (st.numaSelectMinion, st.numaCpuSet)

/-! ## allocNetwork and Schedule (generic_scheduler.go) -/

/-- The VM scan of `allocNetwork`: the first VM whose address no pod on the node
uses; the zero-valued `Network` when every VM is in use. -/
def allocFirstFreeVM (podsOnNode : List Pod) (networkMode : String) : List VM → Network
  | [] => emptyNetwork
  | vm :: rest =>
    if podsOnNode.any (fun pod => vm.address == pod.status.network.address) then
      allocFirstFreeVM podsOnNode networkMode rest
    else
      { address := vm.address
        gateway := vm.gateway
        bridge := "br" ++ toString vm.vlanID
        mode := networkMode }

/-- `allocNetwork`. -/
def allocNetwork (pod : Pod) (allPods : List Pod) (node : Minion) : Network :=
  -- host, nat, none
  if !(pod.spec.networkMode == PodNetworkModeBridge) then
    { emptyNetwork with mode := pod.spec.networkMode }
  else
    -- bridge
    allocFirstFreeVM (mapPodsToMachines allPods node.name) pod.spec.networkMode node.spec.vms

/-- A fit predicate as consumed by `findNodesThatFit`; `none` models the error
return. -/
def FitPredicate : Type :=
  Pod → List Pod → String → Option Bool

/-- The inner predicate loop of `findNodesThatFit`. -/
def nodeFits (pod : Pod) (podsOnNode : List Pod) (node : String) :
    List FitPredicate → Option Bool
  | [] => some true
  | predicate :: rest =>
    match predicate pod podsOnNode node with
    | none => none
    | some false => some false
    | some true => nodeFits pod podsOnNode node rest

/-- `findNodesThatFit`; `none` models a predicate error aborting the scan. -/
def findNodesThatFit (pod : Pod) (allPods : List Pod) (predicates : List FitPredicate)
    (nodes : List Minion) : Option (List Minion) :=
  nodes.foldr
    (fun node acc =>
      match acc with
      | none => none
      | some filtered =>
        match nodeFits pod (mapPodsToMachines allPods node.name) node.name predicates with
        | none => none
        | some true => some (node :: filtered)
        | some false => some filtered)
    (some [])

/-- `genericScheduler.Schedule` (the pod lister resolved to `allPods`). -/
def Schedule (predicates : List FitPredicate) (pod : Pod) (allPods : List Pod)
    (minions : List Minion) : Except String SelectedMachine :=
  if minions.isEmpty then .error "schedule MinionList is null"
  else
    match findNodesThatFit pod allPods predicates minions with
    | none => .error "findNodesThatFit failed"
    | some filteredNodes =>
      if filteredNodes.isEmpty then .error "filtered MinionList is null"
      else
        match numaCpuSelect pod allPods filteredNodes with
        | .error e => .error ("numaCpuSelect failed, " ++ e)
        | .ok (index, set) =>
          if index == -1 then .error "numaCpuSelect failed"
          else
            match filteredNodes.get? index.toNat with
            | none => .error "index out of range"
            | some selectedMinion =>
              let network := allocNetwork pod allPods selectedMinion
              .ok { name := selectedMinion.name
                    network := network
                    cpuSet := String.intercalate "," set }

/-! ## Claim-level views of numaCpuSelect -/

/-- Index of the first list element satisfying `p`. -/
def firstIdxOf (p : α → Bool) : List α → Option Nat
  | [] => none
  | a :: l => if p a then some 0 else (firstIdxOf p l).map (fun k => k + 1)

/-- Index of the last list element satisfying `p`. -/
def lastIdxOf (p : α → Bool) : List α → Option Nat
  | [] => none
  | a :: l =>
    match lastIdxOf p l with
    | some k => some (k + 1)
    | none => if p a then some 0 else none

/-- The free cores a minion offers, after marking the cores of its pods. -/
def nodeFreeCores (allPods : List Pod) (m : Minion) : List Nat :=
  (nodeCpuMap allPods m).get0BitOffs

/-- The NUMA-node count the scheduler passes to `Get0BitOffsNuma`. -/
def nodeNumaCount (m : Minion) : Nat := goUint (nodeCpuNodeNum m)

/-- The minion offers `reqCore` free cores across any NUMA nodes. -/
def nodeFitsAny (allPods : List Pod) (reqCore : Int) (m : Minion) : Bool :=
  decide (((nodeFreeCores allPods m).length : Int) ≥ reqCore)

/-- The first NUMA node of the minion with `reqCore` free cores, if any —
the same search `numaCpuSelect` performs. -/
def nodeFitsNumaIdx? (allPods : List Pod) (reqCore : Int) (m : Minion) : Option Nat :=
  (List.range (nodeCpuNodeNum m).toNat).find?
    (fun i => decide ((((nodeCpuMap allPods m).get0BitOffsNumaAt (nodeNumaCount m) i).length : Int) ≥ reqCore))

/-- The minion offers `reqCore` free cores inside a single NUMA node. -/
def nodeFitsNuma (allPods : List Pod) (reqCore : Int) (m : Minion) : Bool :=
  (nodeFitsNumaIdx? allPods reqCore m).isSome

/-- The NUMA-coherent core set `numaCpuSelect` picks on a NUMA-fitting minion:
the first `reqCore` free cores of its first fitting NUMA node. -/
def numaChoice (allPods : List Pod) (reqCore : Int) (m : Minion) : List String :=
  match nodeFitsNumaIdx? allPods reqCore m with
  | some i =>
    (((nodeCpuMap allPods m).get0BitOffsNumaAt (nodeNumaCount m) i).take reqCore.toNat).map
      (fun o => toString o)
  | none => []

/-- The fallback core set `numaCpuSelect` picks on an any-fitting minion: its
first `reqCore` free cores. -/
def anyChoice (allPods : List Pod) (reqCore : Int) (m : Minion) : List String :=
  ((nodeFreeCores allPods m).take reqCore.toNat).map (fun o => toString o)

/-! ## The scheduler driver (scheduleOne) -/

/-- The observable effects of one `scheduleOne` iteration: the binding passed to
`Binder.Bind` (when that call is reached), whether `Error(pod, err)` and
`Status.UpdatePodStatus(pod)` were invoked, whether the pod's phase was set to
`Failed`, and the pod's `SchedulerFailureCount` after the iteration. -/
structure ScheduleOneResult where
  binding : Option Binding
  errorCalled : Bool
  updatePodStatusCalled : Bool
  phaseSetToFailed : Bool
  failureCountAfter : Int
deriving DecidableEq, Repr

/-- The binding `scheduleOne` constructs for a scheduling destination. -/
def mkBinding (pod : Pod) (dest : SelectedMachine) : Binding :=
  { bindingNs := pod.ns
    podID := pod.name
    host := dest.name
    network := dest.network
    cpuSet := dest.cpuSet }

/-- `Scheduler.scheduleOne`.  `schedule` is the outcome of
`Algorithm.Schedule(pod, MinionLister)` and `bindOutcome` the error returned by
`Binder.Bind` on a given binding (`none` = success).  Event records and the
`CheckScheduledPod` poll loop that follows a successful bind are elided. -/
def scheduleOne (pod : Pod) (maxRetryTimes : Int)
    (schedule : Except String SelectedMachine)
    (bindOutcome : Binding → Option String) : ScheduleOneResult :=
  match schedule with
  | .error _ =>
    if pod.status.schedulerFailureCount < maxRetryTimes then
      { binding := none
        errorCalled := true
        updatePodStatusCalled := false
        phaseSetToFailed := false
        failureCountAfter := pod.status.schedulerFailureCount + 1 }
    else
      { binding := none
        errorCalled := false
        updatePodStatusCalled := true
        phaseSetToFailed := true
        failureCountAfter := pod.status.schedulerFailureCount + 1 }
  | .ok dest =>
    let b := mkBinding pod dest
    match bindOutcome b with
    | some _ =>
      { binding := some b
        errorCalled := true
        updatePodStatusCalled := false
        phaseSetToFailed := false
        failureCountAfter := pod.status.schedulerFailureCount }
    | none =>
      { binding := some b
        errorCalled := false
        updatePodStatusCalled := false
        phaseSetToFailed := false
        failureCountAfter := pod.status.schedulerFailureCount }

/-! ## Kubelet: container garbage collection (kubelet.go) -/

def networkContainerName : String := "net"

/-- A runtime container as the kubelet's GC sees it.  Modelled from the spec:
the (uuid, container-name) identity is parsed from the wire name
`k8s_<containerName>_<podFullName>_<uuid>_<hashhex>` by
`dockertools.ParseDockerName` (not in the source tree) and is modelled as
explicit fields; `running`, `finishedAt` and `created` are the
`InspectContainer` data `purgeOldest` reads, with times as integers. -/
structure DockerContainer where
  id : String
  uuid : String
  ctrName : String
  running : Bool
  finishedAt : Int
  created : Int
deriving DecidableEq, Repr

/-- The filter `purgeOldest` applies before sorting: not running, and finished
longer than `minimumGCAge` ago (no age limit when `minimumGCAge` is zero). -/
def gcEligible (minimumGCAge now : Int) (c : DockerContainer) : Bool :=
  !c.running && (minimumGCAge == 0 || now - c.finishedAt > minimumGCAge)

/-- `ByCreated` ordering: newest first.  (`sort.Sort` is unstable; ties are
resolved deterministically here.) -/
def byCreatedDesc (a b : DockerContainer) : Prop := b.created ≤ a.created

instance : DecidableRel byCreatedDesc := fun a b =>
  inferInstanceAs (Decidable (b.created ≤ a.created))

instance : IsTotal DockerContainer byCreatedDesc :=
  ⟨fun a b => le_total b.created a.created⟩

instance : IsTrans DockerContainer byCreatedDesc :=
  ⟨fun _ _ _ h1 h2 => le_trans h2 h1⟩

/-- `Kubelet.purgeOldest` on one container group: the ids it removes — all but
the newest `maxContainerCount` of the GC-eligible containers. -/
def purgeOldest (minimumGCAge : Int) (maxContainerCount : Nat) (now : Int)
    (group : List DockerContainer) : List String :=
  let dockerData := group.filter (gcEligible minimumGCAge now)
  let sorted := dockerData.insertionSort byCreatedDesc
  if sorted.length ≤ maxContainerCount then []
  else (sorted.drop maxContainerCount).map (fun c => c.id)

/-- The containers grouped under key `uuid + ".net"` by
`GarbageCollectContainers`. -/
def netGroup (containers : List DockerContainer) (uuid : String) : List DockerContainer :=
  containers.filter (fun c => c.ctrName == networkContainerName && c.uuid == uuid)

/-- The distinct group keys (net-container uuids) in listing order. -/
def netUuids (containers : List DockerContainer) : List String :=
  ((containers.filter (fun c => c.ctrName == networkContainerName)).map (fun c => c.uuid)).dedup

/-- `Kubelet.GarbageCollectContainers`: the ids removed across all net-container
groups longer than `maxContainerCount` (disabled when `maxContainerCount` is
zero). -/
def GarbageCollectContainers (minimumGCAge : Int) (maxContainerCount : Nat) (now : Int)
    (containers : List DockerContainer) : List String :=
  if maxContainerCount == 0 then []
  else
    (netUuids containers).flatMap (fun u =>
      let list := netGroup containers u
      if list.length ≤ maxContainerCount then []
      else purgeOldest minimumGCAge maxContainerCount now list)

/-- The containers left after removing the ids `GarbageCollectContainers`
returned. -/
def remainingAfterGC (removed : List String) (containers : List DockerContainer) :
    List DockerContainer :=
  containers.filter (fun c => !(removed.contains c.id))

/-! ## Kubelet: syncPod restart decision (kubelet.go) -/

/-- Modelled from the spec: an entry of
`dockertools.GetRecentDockerContainersWithNameAndUUID` (not in the source
tree), which lists the recent — including exited — containers for a
(podFullName, uuid, containerName), most recent first; `syncPod` reads only the
exit code of the head. -/
structure RecentContainer where
  exitCode : Int
deriving DecidableEq, Repr

/-- The restart-policy gate of `syncPod` for a declared container that is not in
the current runtime listing: `true` means `syncPod` proceeds to create the
container.  (`containerChanged` is still `false` at this point in the loop.) -/
def shouldCreateContainer (restartPolicy : RestartPolicy) (recentContainers : List RecentContainer) : Bool :=
  if recentContainers.length > 0 && !restartPolicy.always then
    if restartPolicy.never then false
    else if restartPolicy.onFailure then
      match recentContainers with
      | c :: _ => !(c.exitCode == 0)
      | [] => true
    else true
  else true

inductive ContainerAction where
  | keep
  | create
  | skip
deriving DecidableEq, Repr

/-- The per-container decision of `syncPod`'s reconciliation loop: a container
found running in the runtime is kept (after a health check); otherwise the
restart-policy gate decides whether creation proceeds. -/
def syncPodContainerAction (foundInRuntime : Bool) (restartPolicy : RestartPolicy)
    (recentContainers : List RecentContainer) : ContainerAction :=
  if foundInRuntime then .keep
  else if shouldCreateContainer restartPolicy recentContainers then .create
  else .skip

/-! ## Kubelet: podWorkers (kubelet.go) -/

/-- The worker pool: `workers` is the `util.StringSet` guarded by the mutex;
`inflight` the pod full names whose dispatched goroutine has not yet removed
its entry. -/
structure PoolState where
  workers : List String
  inflight : List String
deriving DecidableEq, Repr

/-- `podWorkers.Run`: a no-op when the name is already in the set; otherwise the
name is inserted and a worker goroutine dispatched. -/
def poolRun (s : PoolState) (name : String) : PoolState :=
  if s.workers.contains name then s
  else { workers := name :: s.workers, inflight := name :: s.inflight }

/-- A dispatched worker finishing: under the mutex it deletes its entry. -/
def poolComplete (s : PoolState) (name : String) : PoolState :=
  { workers := s.workers.erase name, inflight := s.inflight.erase name }

/-- Interleavings of `Run` calls and worker completions. -/
inductive PoolStep : PoolState → PoolState → Prop
  | run (s : PoolState) (name : String) : PoolStep s (poolRun s name)
  | complete (s : PoolState) (name : String) (h : name ∈ s.inflight) :
      PoolStep s (poolComplete s name)

/-- Pool states reachable from the freshly constructed pool (`newPodWorkers`). -/
def PoolReachable : PoolState → Prop :=
  Relation.ReflTransGen PoolStep { workers := [], inflight := [] }

/-! ## PodCache (the master's pod status cache) -/

/-- `getPhase`: counts each declared container as running / stopped / unknown
from the runtime info and derives the pod phase. -/
def getPhase (spec : PodSpec) (info : Option PodInfo) : PodPhase :=
  match info with
  | none => .pending
  | some info =>
    let counts := spec.containers.foldl
      (fun (acc : Nat × Nat × Nat) container =>
        match lookupInfo info container.name with
        | some containerStatus =>
          if containerStatus.running then (acc.1 + 1, acc.2.1, acc.2.2)
          else if containerStatus.terminated then (acc.1, acc.2.1 + 1, acc.2.2)
          else (acc.1, acc.2.1, acc.2.2 + 1)
        | none => (acc.1, acc.2.1, acc.2.2 + 1))
      (0, 0, 0)
    if counts.1 > 0 && counts.2.2 == 0 then .running
    else if counts.1 == 0 && counts.2.1 > 0 && counts.2.2 == 0 then .failed
    else if counts.1 == 0 && counts.2.1 == 0 && counts.2.2 > 0 then .pending
    else .pending

/-- The pod cache's collaborators: node existence (the cached
`PodCache.nodeExists` answer), `PodInfoGetter.GetPodInfo` keyed by (host,
namespace, name), and `IPGetter.GetInstanceIP`. -/
structure PodCacheEnv where
  nodeExists : String → Bool
  getPodInfo : String → String → String → Except Unit PodInfo
  getInstanceIP : String → String

/-- `PodCache.computePodStatus`; the `Bool` is whether a non-nil error is
returned alongside the new status. -/
def computePodStatus (env : PodCacheEnv) (pod : Pod) : PodStatus × Bool :=
  let newStatus := pod.status
  if pod.status.host == "" then
    -- Not assigned, or assignment failed: the phase is left as the scheduler
    -- set it.
    (newStatus, false)
  else if !(env.nodeExists pod.status.host) then
    -- Assigned to a non-existing node.
    ({ newStatus with phase := .failed }, false)
  else
    let newStatus := { newStatus with hostIP := env.getInstanceIP pod.status.host }
    match env.getPodInfo pod.status.host pod.ns pod.name with
    | .error _ => ({ newStatus with phase := .failed }, true)
    | .ok info =>
      let newStatus :=
        { newStatus with info := some info, phase := getPhase pod.spec (some info) }
      let newStatus :=
        match lookupInfo info networkContainerName with
        | some netContainerInfo =>
          if !(netContainerInfo.podIP == "") then { newStatus with podIP := netContainerInfo.podIP }
          else newStatus
        | none => newStatus
      (newStatus, false)

/-! ## Concrete fixtures used by counterexamples and witnesses -/

/-- A pod scheduled on `host` holding `cpuSet`, with `addr` as its bound network
address. -/
def fixPodOn (host cpuSet addr : String) : Pod :=
  { name := "existing"
    ns := "default"
    spec :=
      { containers := []
        nodeSelector := []
        networkMode := "bridge"
        restartPolicy := ⟨true, false, false⟩ }
    status :=
      { phase := .running
        host := host
        podIP := ""
        hostIP := ""
        info := none
        schedulerFailureCount := 0
        cpuSet := cpuSet
        network := { address := addr, gateway := "", bridge := "", mode := "bridge" } } }

/-- A pending pod with one container requesting `core` cores, in `mode`
networking, with node selector `sel` and `count` recorded scheduling failures. -/
def fixPendingPod (core : Int) (mode : String) (sel : List (String × String))
    (count : Int) : Pod :=
  { name := "pending"
    ns := "default"
    spec :=
      { containers := [{ name := "c1", image := "img", cpu := 0, memory := 0,
                         core := core, disk := 0, ports := [] }]
        nodeSelector := sel
        networkMode := mode
        restartPolicy := ⟨true, false, false⟩ }
    status :=
      { phase := .pending
        host := ""
        podIP := ""
        hostIP := ""
        info := none
        schedulerFailureCount := count
        cpuSet := ""
        network := emptyNetwork } }

/-- A minion named `n` with the given capacity, labels and VMs. -/
def fixMinion (n : String) (cap : Capacity) (lbls : List (String × String))
    (vms : List VM) : Minion :=
  { name := n, labels := lbls, spec := { capacity := cap, vms := vms } }

/-! ## C5: allocNetwork -/

/-- The VM scan returns the record of the first VM whose address no pod on the
node uses. -/
theorem allocFirstFreeVM_eq_find (podsOnNode : List Pod) (mode : String)
    (vms : List VM) (vm : VM)
    (h : vms.find?
        (fun vm => !(podsOnNode.any (fun p => vm.address == p.status.network.address))) =
      some vm) :
    allocFirstFreeVM podsOnNode mode vms =
      { address := vm.address, gateway := vm.gateway,
        bridge := "br" ++ toString vm.vlanID, mode := mode } := by
  induction vms with
  | nil => simp [List.find?] at h
  | cons v rest ih =>
    rw [List.find?_cons] at h
    by_cases hv : (podsOnNode.any (fun p => v.address == p.status.network.address)) = true
    · simp only [hv, Bool.not_true] at h
      simp only [allocFirstFreeVM, hv, if_true]
      exact ih h
    · simp only [Bool.not_eq_true] at hv
      simp only [hv, Bool.not_false] at h
      cases h
      simp [allocFirstFreeVM, hv]

/-- C5: for a pod in host, nat or none mode, `allocNetwork` records only the
mode; for a bridge-mode pod it returns the first VM of the node whose address
is not used by any existing pod on that node, recording its address, its
gateway, `br<VlanID>` and the bridge mode. -/
theorem allocNetwork_first_free_vm (pod : Pod) (allPods : List Pod) (node : Minion) :
    (pod.spec.networkMode ≠ PodNetworkModeBridge →
      allocNetwork pod allPods node = { emptyNetwork with mode := pod.spec.networkMode }) ∧
    (∀ vm : VM,
      pod.spec.networkMode = PodNetworkModeBridge →
      node.spec.vms.find?
          (fun vm =>
            !((mapPodsToMachines allPods node.name).any
              (fun p => vm.address == p.status.network.address))) =
        some vm →
      allocNetwork pod allPods node =
        { address := vm.address, gateway := vm.gateway,
          bridge := "br" ++ toString vm.vlanID, mode := PodNetworkModeBridge }) := by
  constructor
  · intro hmode
    have : (pod.spec.networkMode == PodNetworkModeBridge) = false := by
      simpa using hmode
    simp [allocNetwork, this]
  · intro vm hmode hfind
    have : (pod.spec.networkMode == PodNetworkModeBridge) = true := by
      simpa using hmode
    rw [allocNetwork, this]
    simpa [hmode] using
      allocFirstFreeVM_eq_find (mapPodsToMachines allPods node.name)
        pod.spec.networkMode node.spec.vms vm hfind

/-- Scenario S3: VMs 10.0.0.2 and 10.0.0.3 on vlan 7, with 10.0.0.2 in use. -/
def s3Node : Minion :=
  fixMinion "n1" ⟨none, none, none, none, none⟩ []
    [⟨"10.0.0.2", "10.0.0.1", 7⟩, ⟨"10.0.0.3", "10.0.0.1", 7⟩]

def s3Pods : List Pod := [fixPodOn "n1" "" "10.0.0.2"]

/-- C5 witness: scenario S3 — the second VM is selected with bridge `br7`. -/
theorem allocNetwork_first_free_vm_witness :
    allocNetwork (fixPendingPod 0 "bridge" [] 0) s3Pods s3Node =
      { address := "10.0.0.3", gateway := "10.0.0.1", bridge := "br7", mode := "bridge" } :=
  (allocNetwork_first_free_vm (fixPendingPod 0 "bridge" [] 0) s3Pods s3Node).2
    ⟨"10.0.0.3", "10.0.0.1", 7⟩ rfl (by decide)

/-! ## C7: syncPod restart policy -/

/-- C7: a declared container that is not in the runtime listing but has recent
containers is recreated under RestartPolicy.Always, never recreated under
RestartPolicy.Never, and under RestartPolicy.OnFailure is skipped exactly when
the most recent container exited with code 0. -/
theorem syncPod_restart_policy (recentContainers : List RecentContainer)
    (h : recentContainers ≠ []) :
    syncPodContainerAction false ⟨true, false, false⟩ recentContainers = .create ∧
    syncPodContainerAction false ⟨false, false, true⟩ recentContainers = .skip ∧
    (∀ c rest, recentContainers = c :: rest →
      (syncPodContainerAction false ⟨false, true, false⟩ recentContainers = .skip ↔
        c.exitCode = 0)) := by
  refine ⟨?_, ?_, ?_⟩
  · cases recentContainers with
    | nil => simp at h
    | cons c rest => simp [syncPodContainerAction, shouldCreateContainer]
  · cases recentContainers with
    | nil => simp at h
    | cons c rest =>
      simp [syncPodContainerAction, shouldCreateContainer, Nat.succ_pos]
  · intro c rest hrec
    subst hrec
    by_cases hc : c.exitCode = 0
    · simp [syncPodContainerAction, shouldCreateContainer, hc]
    · simp [syncPodContainerAction, shouldCreateContainer, hc]

/-- C7 witness: scenario S4 — RestartPolicy.Never with a recent exit-0
container is not recreated, and the other two policies behave as claimed. -/
theorem syncPod_restart_policy_witness :
    syncPodContainerAction false ⟨true, false, false⟩ [⟨0⟩] = .create ∧
    syncPodContainerAction false ⟨false, false, true⟩ [⟨0⟩] = .skip ∧
    (∀ c rest, ([⟨0⟩] : List RecentContainer) = c :: rest →
      (syncPodContainerAction false ⟨false, true, false⟩ [⟨0⟩] = .skip ↔
        c.exitCode = 0)) :=
  syncPod_restart_policy [⟨0⟩] (by decide)

/-! ## C2: scheduleOne failure handling -/

/-- A bind collaborator that always fails. -/
def failingBind : Binding → Option String := fun _ => some "bind rejected"

/-- C2 counterexample: a binding error calls `Error` but leaves
`SchedulerFailureCount` unchanged (the claim requires an increment on every
step's error), and even a pod whose count has reached MaxRetryTimes is neither
transitioned to Failed nor reported via `UpdatePodStatus` on a binding error. -/
theorem scheduleOne_bind_error_counterexample :
    (scheduleOne (fixPendingPod 0 "host" [] 0) 3
        (.ok ⟨"n1", emptyNetwork, ""⟩) failingBind).errorCalled = true ∧
    (scheduleOne (fixPendingPod 0 "host" [] 0) 3
        (.ok ⟨"n1", emptyNetwork, ""⟩) failingBind).failureCountAfter = 0 ∧
    (fixPendingPod 0 "host" [] 0).status.schedulerFailureCount = 0 ∧
    (scheduleOne (fixPendingPod 0 "host" [] 5) 3
        (.ok ⟨"n1", emptyNetwork, ""⟩) failingBind).errorCalled = true ∧
    (scheduleOne (fixPendingPod 0 "host" [] 5) 3
        (.ok ⟨"n1", emptyNetwork, ""⟩) failingBind).phaseSetToFailed = false ∧
    (scheduleOne (fixPendingPod 0 "host" [] 5) 3
        (.ok ⟨"n1", emptyNetwork, ""⟩) failingBind).updatePodStatusCalled = false := by
  decide

/-- C2 (amended): an error from `Algorithm.Schedule` increments
`SchedulerFailureCount`, calling `Error(pod, err)` while the count was below
`MaxRetryTimes` and, once it has reached `MaxRetryTimes`, setting Phase=Failed
and calling `Status.UpdatePodStatus(pod)` instead; an error from `Binder.Bind`
calls `Error(pod, err)` but leaves the count unchanged and never triggers the
Failed transition. -/
theorem scheduleOne_failure_handling (pod : Pod) (maxRetryTimes : Int)
    (dest : SelectedMachine) (bindOutcome : Binding → Option String) (e : String) :
    (pod.status.schedulerFailureCount < maxRetryTimes →
      scheduleOne pod maxRetryTimes (.error e) bindOutcome =
        { binding := none, errorCalled := true, updatePodStatusCalled := false,
          phaseSetToFailed := false,
          failureCountAfter := pod.status.schedulerFailureCount + 1 }) ∧
    (¬ pod.status.schedulerFailureCount < maxRetryTimes →
      scheduleOne pod maxRetryTimes (.error e) bindOutcome =
        { binding := none, errorCalled := false, updatePodStatusCalled := true,
          phaseSetToFailed := true,
          failureCountAfter := pod.status.schedulerFailureCount + 1 }) ∧
    (∀ msg, bindOutcome (mkBinding pod dest) = some msg →
      scheduleOne pod maxRetryTimes (.ok dest) bindOutcome =
        { binding := some (mkBinding pod dest), errorCalled := true,
          updatePodStatusCalled := false, phaseSetToFailed := false,
          failureCountAfter := pod.status.schedulerFailureCount }) ∧
    (bindOutcome (mkBinding pod dest) = none →
      scheduleOne pod maxRetryTimes (.ok dest) bindOutcome =
        { binding := some (mkBinding pod dest), errorCalled := false,
          updatePodStatusCalled := false, phaseSetToFailed := false,
          failureCountAfter := pod.status.schedulerFailureCount }) := by
  refine ⟨?_, ?_, ?_, ?_⟩
  · intro h
    simp [scheduleOne, h]
  · intro h
    simp [scheduleOne, h]
  · intro msg h
    simp [scheduleOne, h]
  · intro h
    simp [scheduleOne, h]

/-- C2 witness: a scheduling error below MaxRetryTimes retries with the count
incremented. -/
theorem scheduleOne_failure_handling_witness :
    scheduleOne (fixPendingPod 0 "host" [] 0) 3 (.error "no fit") failingBind =
      { binding := none, errorCalled := true, updatePodStatusCalled := false,
        phaseSetToFailed := false, failureCountAfter := 1 } :=
  (scheduleOne_failure_handling (fixPendingPod 0 "host" [] 0) 3
      ⟨"n1", emptyNetwork, ""⟩ failingBind "no fit").1 (by decide)

/-! ## C10: exhausted bridge VMs -/

/-- The node of the C10 scenario: a single VM whose address the existing pod
already holds. -/
def c10Node : Minion :=
  fixMinion "n1" ⟨none, none, none, none, none⟩ [] [⟨"10.0.0.2", "10.0.0.1", 7⟩]

def c10AllPods : List Pod := [fixPodOn "n1" "" "10.0.0.2"]

/-- C10: on a node whose every VM address is already in use, `allocNetwork`
returns a network with empty address, gateway and bridge and no error, so
`Schedule` succeeds and `scheduleOne` passes a binding with an empty network
address to `Binder.Bind`. -/
theorem schedule_exhausted_vms_empty_network :
    allocNetwork (fixPendingPod 0 "bridge" [] 0) c10AllPods c10Node = emptyNetwork ∧
    Schedule [] (fixPendingPod 0 "bridge" [] 0) c10AllPods [c10Node] =
      .ok { name := "n1", network := emptyNetwork, cpuSet := "" } ∧
    (scheduleOne (fixPendingPod 0 "bridge" [] 0) 3
        (Schedule [] (fixPendingPod 0 "bridge" [] 0) c10AllPods [c10Node])
        (fun _ => none)).binding =
      some { bindingNs := "default", podID := "pending", host := "n1",
             network := emptyNetwork, cpuSet := "" } := by
  decide

/-! ## C3: PodFitsResources -/

/-- C3 counterexample: a pod requesting no milliCPU and no memory but 10 cores
passes `PodFitsResources` on a 1-core node — the claimed resource inequality
for Core is violated while the predicate returns true. -/
theorem podFitsResources_zero_cpu_mem_counterexample :
    PodFitsResources
        (fun n => if n == "n1" then
          some (fixMinion "n1" ⟨none, none, some 1, none, none⟩ [] []) else none)
        (fixPendingPod 10 "host" [] 0) [] "n1" = some true ∧
    claimResourceFit (fixPendingPod 10 "host" [] 0) []
        (fixMinion "n1" ⟨none, none, some 1, none, none⟩ [] []) = false := by
  decide

/-- C3 (amended): when the pod's summed MilliCPU and Memory requests are both
zero, `PodFitsResources` returns true unconditionally (skipping the Core, Disk
and bridge-VM checks); otherwise it returns true iff each of the four resource
sums fits within capacity (zero capacity meaning unlimited) and, in bridge
mode, the node has more VM entries than existing pods. -/
theorem podFitsResources_characterization (getNodeInfo : String → Option Minion)
    (pod : Pod) (existingPods : List Pod) (node : String) (info : Minion)
    (h : getNodeInfo node = some info) :
    PodFitsResources getNodeInfo pod existingPods node ≠ none ∧
    (PodFitsResources getNodeInfo pod existingPods node = some true ↔
      ((getResourceRequest pod).milliCPU = 0 ∧ (getResourceRequest pod).memory = 0) ∨
      claimResourceFit pod existingPods info = true) := by
  simp only [PodFitsResources, claimResourceFit, h]
  split_ifs with h1 h2
  · constructor
    · simp
    · simp only [Bool.and_eq_true, beq_iff_eq] at h1
      simp [h1]
  · refine ⟨by simp, ?_⟩
    simp only [Bool.and_eq_true, beq_iff_eq, decide_eq_true_eq, not_and] at h1 h2
    constructor
    · intro hx
      simp at hx
    · rintro (hzero | hclaim)
      · exact absurd hzero.2 (h1 hzero.1)
      · exfalso
        simp only [Bool.and_eq_true, Bool.or_eq_true, Bool.not_eq_true', beq_iff_eq,
          beq_eq_false_iff_ne, decide_eq_true_eq, ne_eq] at hclaim
        rcases hclaim.2 with hnb | hlt
        · exact hnb h2.1
        · omega
  · refine ⟨by simp, ?_⟩
    rw [Option.some.injEq]
    simp only [Bool.and_eq_true, Bool.or_eq_true, Bool.not_eq_true', beq_iff_eq,
      beq_eq_false_iff_ne, decide_eq_true_eq, not_and, ne_eq] at h1 h2 ⊢
    by_cases hm : pod.spec.networkMode = PodNetworkModeBridge
    · have hvm : ¬ info.spec.vms.length ≤ existingPods.length := fun hh => h2 hm hh
      simp only [hm, not_true_eq_false, false_or]
      omega
    · simp only [hm, not_false_eq_true, true_or, and_true]
      omega

/-- C3 witness: one existing 1-core pod plus a 1-core candidate fit a 2-core
node (with a VM slot free in bridge mode). -/
theorem podFitsResources_characterization_witness :
    PodFitsResources
        (fun n => if n == "n1" then
          some (fixMinion "n1" ⟨some 2000, some 1024, some 2, none, none⟩ []
            [⟨"10.0.0.2", "10.0.0.1", 7⟩, ⟨"10.0.0.3", "10.0.0.1", 7⟩]) else none)
        (fixPendingPod 1 "bridge" [] 0) [fixPodOn "n1" "0" "10.0.0.2"] "n1" ≠ none ∧
    (PodFitsResources
        (fun n => if n == "n1" then
          some (fixMinion "n1" ⟨some 2000, some 1024, some 2, none, none⟩ []
            [⟨"10.0.0.2", "10.0.0.1", 7⟩, ⟨"10.0.0.3", "10.0.0.1", 7⟩]) else none)
        (fixPendingPod 1 "bridge" [] 0) [fixPodOn "n1" "0" "10.0.0.2"] "n1" = some true ↔
      (((getResourceRequest (fixPendingPod 1 "bridge" [] 0)).milliCPU = 0 ∧
        (getResourceRequest (fixPendingPod 1 "bridge" [] 0)).memory = 0)) ∨
      claimResourceFit (fixPendingPod 1 "bridge" [] 0) [fixPodOn "n1" "0" "10.0.0.2"]
        (fixMinion "n1" ⟨some 2000, some 1024, some 2, none, none⟩ []
          [⟨"10.0.0.2", "10.0.0.1", 7⟩, ⟨"10.0.0.3", "10.0.0.1", 7⟩]) = true) :=
  podFitsResources_characterization _ (fixPendingPod 1 "bridge" [] 0)
    [fixPodOn "n1" "0" "10.0.0.2"] "n1"
    (fixMinion "n1" ⟨some 2000, some 1024, some 2, none, none⟩ []
      [⟨"10.0.0.2", "10.0.0.1", 7⟩, ⟨"10.0.0.3", "10.0.0.1", 7⟩]) rfl

/-! ## C4: PodSelectorMatches -/

/-- C4 counterexample: a pod with an empty NodeSelector fits a node labelled
`active=false` — the claim requires such a node to be rejected. -/
theorem podSelectorMatches_empty_selector_counterexample :
    PodSelectorMatches
        (fun n => if n == "n1" then
          some (fixMinion "n1" ⟨none, none, none, none, none⟩ [("active", "false")] [])
          else none)
        (fixPendingPod 0 "host" [] 0) [] "n1" = some true ∧
    claimSelectorFit (fixPendingPod 0 "host" [] 0)
        (fixMinion "n1" ⟨none, none, none, none, none⟩ [("active", "false")] []) "n1" =
      false := by
  decide

/-- C4 (amended): a pod with an empty NodeSelector fits every node
unconditionally (the `active=false` and `sriov=1` checks are skipped);
otherwise, with a `whitelist` key the node fits iff its name appears among the
comma-separated entries, and without one the node's labels must contain the
selector as a subset, an `active=false` label disqualifies the node, and an
`sriov=1` label disqualifies it unless the selector also has the `sriov` key. -/
theorem podSelectorMatches_characterization (getNodeInfo : String → Option Minion)
    (pod : Pod) (existingPods : List Pod) (node : String) (info : Minion)
    (h : getNodeInfo node = some info) :
    PodSelectorMatches getNodeInfo pod existingPods node ≠ none ∧
    (PodSelectorMatches getNodeInfo pod existingPods node = some true ↔
      pod.spec.nodeSelector = [] ∨ claimSelectorFit pod info node = true) := by
  by_cases he : pod.spec.nodeSelector.isEmpty = true
  · have he' : pod.spec.nodeSelector = [] := by simpa using he
    exact ⟨by simp [PodSelectorMatches, he], by simp [PodSelectorMatches, he, he']⟩
  · have he' : ¬ pod.spec.nodeSelector = [] := by simpa using he
    rw [Bool.not_eq_true] at he
    cases hwl : lookup pod.spec.nodeSelector "whitelist" with
    | some whitelist =>
      refine ⟨by simp [PodSelectorMatches, he, hwl], ?_⟩
      simp [PodSelectorMatches, claimSelectorFit, he, hwl, he']
    | none =>
      by_cases hs : ((lookup pod.spec.nodeSelector "sriov").isNone
          && lookup info.labels "sriov" == some "1") = true
      · rw [Bool.and_eq_true] at hs
        refine ⟨by simp [PodSelectorMatches, he, hwl, h, hs.1, hs.2], ?_⟩
        simp [PodSelectorMatches, claimSelectorFit, he, hwl, h, hs.1, hs.2, he']
      · have h3 : (!(lookup info.labels "sriov" == some "1")
            || !((lookup pod.spec.nodeSelector "sriov").isNone)) = true := by
          cases hA : (lookup pod.spec.nodeSelector "sriov").isNone <;>
            cases hB : (lookup info.labels "sriov" == some "1") <;> simp_all
        rw [Bool.not_eq_true] at hs
        refine ⟨by simp [PodSelectorMatches, he, hwl, h, hs], ?_⟩
        simp [PodSelectorMatches, claimSelectorFit, he, hwl, h, hs, h3, he',
          Bool.and_assoc]
        intro _ _
        rw [Bool.or_eq_true] at h3
        rcases h3 with hx | hx
        · left
          simpa using hx
        · right
          simpa using hx

/-- C4 witness: a selector `{model: a}` matched by a node labelled `model=a`. -/
theorem podSelectorMatches_characterization_witness :
    PodSelectorMatches
        (fun n => if n == "n1" then
          some (fixMinion "n1" ⟨none, none, none, none, none⟩ [("model", "a")] [])
          else none)
        (fixPendingPod 0 "host" [("model", "a")] 0) [] "n1" ≠ none ∧
    (PodSelectorMatches
        (fun n => if n == "n1" then
          some (fixMinion "n1" ⟨none, none, none, none, none⟩ [("model", "a")] [])
          else none)
        (fixPendingPod 0 "host" [("model", "a")] 0) [] "n1" = some true ↔
      (fixPendingPod 0 "host" [("model", "a")] 0).spec.nodeSelector = [] ∨
      claimSelectorFit (fixPendingPod 0 "host" [("model", "a")] 0)
        (fixMinion "n1" ⟨none, none, none, none, none⟩ [("model", "a")] []) "n1" = true) :=
  podSelectorMatches_characterization _ (fixPendingPod 0 "host" [("model", "a")] 0)
    [] "n1" (fixMinion "n1" ⟨none, none, none, none, none⟩ [("model", "a")] []) rfl

/-! ## C8: computePodStatus and getPhase -/

/-- Claim-level count of declared containers reported Running. -/
def countRunning (spec : PodSpec) (info : PodInfo) : Nat :=
  spec.containers.countP
    (fun c =>
      match lookupInfo info c.name with
      | some cs => cs.running
      | none => false)

/-- Claim-level count of declared containers reported stopped (terminated and
not running). -/
def countStopped (spec : PodSpec) (info : PodInfo) : Nat :=
  spec.containers.countP
    (fun c =>
      match lookupInfo info c.name with
      | some cs => !cs.running && cs.terminated
      | none => false)

/-- Claim-level count of declared containers in an unknown state (absent from
the info, or neither running nor terminated). -/
def countUnknown (spec : PodSpec) (info : PodInfo) : Nat :=
  spec.containers.countP
    (fun c =>
      match lookupInfo info c.name with
      | some cs => !cs.running && !cs.terminated
      | none => true)

/-- The phase the claim describes: Running when at least one container runs and
none is unknown; Failed when none runs, at least one is stopped and none is
unknown; Pending in every other case. -/
def claimPhase (spec : PodSpec) (info : PodInfo) : PodPhase :=
  if 0 < countRunning spec info ∧ countUnknown spec info = 0 then .running
  else if countRunning spec info = 0 ∧ 0 < countStopped spec info ∧
      countUnknown spec info = 0 then .failed
  else .pending

/-- The counter fold of `getPhase` computes the three claim-level counts. -/
theorem getPhase_fold_counts (info : PodInfo) (l : List Container) (r s u : Nat) :
    l.foldl
      (fun (acc : Nat × Nat × Nat) container =>
        match lookupInfo info container.name with
        | some containerStatus =>
          if containerStatus.running then (acc.1 + 1, acc.2.1, acc.2.2)
          else if containerStatus.terminated then (acc.1, acc.2.1 + 1, acc.2.2)
          else (acc.1, acc.2.1, acc.2.2 + 1)
        | none => (acc.1, acc.2.1, acc.2.2 + 1))
      (r, s, u) =
    (r + l.countP (fun c =>
        match lookupInfo info c.name with
        | some cs => cs.running
        | none => false),
     s + l.countP (fun c =>
        match lookupInfo info c.name with
        | some cs => !cs.running && cs.terminated
        | none => false),
     u + l.countP (fun c =>
        match lookupInfo info c.name with
        | some cs => !cs.running && !cs.terminated
        | none => true)) := by
  induction l generalizing r s u with
  | nil => simp
  | cons c rest ih =>
    rw [List.foldl_cons]
    cases hcs : lookupInfo info c.name with
    | none =>
      simp only [hcs]
      rw [ih]
      simp [List.countP_cons, hcs, Prod.ext_iff]
      omega
    | some cs =>
      by_cases hrun : cs.running = true
      · simp only [hcs, hrun, if_true]
        rw [ih]
        simp [List.countP_cons, hcs, hrun, Prod.ext_iff]
        omega
      · rw [Bool.not_eq_true] at hrun
        by_cases hterm : cs.terminated = true
        · simp only [hcs, hrun, hterm, Bool.false_eq_true, if_false, if_true]
          rw [ih]
          simp [List.countP_cons, hcs, hrun, hterm, Prod.ext_iff]
          omega
        · rw [Bool.not_eq_true] at hterm
          simp only [hcs, hrun, hterm, Bool.false_eq_true, if_false]
          rw [ih]
          simp [List.countP_cons, hcs, hrun, hterm, Prod.ext_iff]
          omega

/-- On a non-nil info map, `getPhase` computes exactly the claimed phase. -/
theorem getPhase_eq_claimPhase (spec : PodSpec) (info : PodInfo) :
    getPhase spec (some info) = claimPhase spec info := by
  rw [getPhase]
  rw [getPhase_fold_counts info spec.containers 0 0 0]
  simp only [Nat.zero_add]
  rw [claimPhase, countRunning, countStopped, countUnknown]
  split_ifs with h1 h2 h3 h4 h5 h6 <;> simp_all

/-- C8: `computePodStatus` returns the status unchanged when `Status.Host` is
empty; sets Phase=Failed when the host node does not exist or `GetPodInfo`
errors; and otherwise fills `Info` and computes the phase via `getPhase` —
Running iff some container runs and none is unknown, Failed iff none runs,
some is stopped and none is unknown, Pending otherwise. -/
theorem computePodStatus_characterization (env : PodCacheEnv) (pod : Pod) :
    (pod.status.host = "" → computePodStatus env pod = (pod.status, false)) ∧
    (pod.status.host ≠ "" → env.nodeExists pod.status.host = false →
      computePodStatus env pod = ({ pod.status with phase := .failed }, false)) ∧
    (∀ e, pod.status.host ≠ "" → env.nodeExists pod.status.host = true →
      env.getPodInfo pod.status.host pod.ns pod.name = .error e →
      (computePodStatus env pod).1.phase = .failed ∧ (computePodStatus env pod).2 = true) ∧
    (∀ info, pod.status.host ≠ "" → env.nodeExists pod.status.host = true →
      env.getPodInfo pod.status.host pod.ns pod.name = .ok info →
      (computePodStatus env pod).1.info = some info ∧
      (computePodStatus env pod).1.phase = claimPhase pod.spec info ∧
      (computePodStatus env pod).2 = false) := by
  refine ⟨?_, ?_, ?_, ?_⟩
  · intro h
    have hb : (pod.status.host == "") = true := by simpa using h
    simp [computePodStatus, hb]
  · intro h hn
    have hb : (pod.status.host == "") = false := by simpa using h
    simp [computePodStatus, hb, hn]
  · intro e h hn hi
    have hb : (pod.status.host == "") = false := by simpa using h
    simp [computePodStatus, hb, hn, hi]
  · intro info h hn hi
    have hb : (pod.status.host == "") = false := by simpa using h
    rw [← getPhase_eq_claimPhase]
    simp only [computePodStatus, hb, hn, hi, Bool.false_eq_true, if_false,
      Bool.not_false, if_true]
    cases hnet : lookupInfo info networkContainerName with
    | none => simp [hnet]
    | some netInfo =>
      by_cases hip : (netInfo.podIP == "") = true
      · simp [hnet, hip]
      · rw [Bool.not_eq_true] at hip
        simp [hnet, hip]

/-- C8 witness: a pod on a vanished node transitions to Failed, and a pod on a
live node with one running container is Running. -/
theorem computePodStatus_characterization_witness :
    computePodStatus ⟨fun _ => false, fun _ _ _ => .ok [], fun _ => ""⟩
        (fixPodOn "gone" "" "") =
      ({ (fixPodOn "gone" "" "").status with phase := .failed }, false) :=
  ((computePodStatus_characterization
      ⟨fun _ => false, fun _ _ _ => .ok [], fun _ => ""⟩
      (fixPodOn "gone" "" "")).2.1 (by decide) rfl)

/-! ## C9: podWorkers -/

/-- The pool invariant: both lists duplicate-free and the worker set tracking
exactly the in-flight workers. -/
def poolInv (s : PoolState) : Prop :=
  s.workers.Nodup ∧ s.inflight.Nodup ∧ (∀ n, n ∈ s.workers ↔ n ∈ s.inflight)

theorem poolInv_step (s t : PoolState) (hinv : poolInv s) (hstep : PoolStep s t) :
    poolInv t := by
  obtain ⟨hw, hi, hiff⟩ := hinv
  cases hstep with
  | run name =>
    by_cases hc : name ∈ s.workers
    · simpa [poolRun, hc] using ⟨hw, hi, hiff⟩
    · have hni : name ∉ s.inflight := fun hmem => hc ((hiff name).mpr hmem)
      have hrun : poolRun s name =
          { workers := name :: s.workers, inflight := name :: s.inflight } := by
        simp [poolRun, hc]
      rw [hrun]
      refine ⟨List.nodup_cons.mpr ⟨hc, hw⟩, List.nodup_cons.mpr ⟨hni, hi⟩, ?_⟩
      intro n
      simp only [List.mem_cons]
      exact or_congr Iff.rfl (hiff n)
  | complete name hmem =>
    refine ⟨hw.erase name, hi.erase name, ?_⟩
    intro n
    rw [poolComplete]
    rw [hw.mem_erase_iff, hi.mem_erase_iff]
    exact and_congr Iff.rfl (hiff n)

theorem poolInv_reachable (s : PoolState) (hs : PoolReachable s) : poolInv s := by
  induction hs with
  | refl => exact ⟨List.nodup_nil, List.nodup_nil, fun n => Iff.rfl⟩
  | tail _ hstep ih => exact poolInv_step _ _ ih hstep

/-- C9: in every reachable pool state, at most one worker per pod full name is
in flight; `Run` is a no-op exactly when a worker for the name is in flight,
and otherwise inserts the name and dispatches a worker. -/
theorem podWorkers_at_most_one (s : PoolState) (hs : PoolReachable s) (name : String) :
    s.inflight.count name ≤ 1 ∧
    (name ∈ s.inflight → poolRun s name = s) ∧
    (name ∉ s.inflight →
      poolRun s name = { workers := name :: s.workers, inflight := name :: s.inflight }) := by
  obtain ⟨hw, hi, hiff⟩ := poolInv_reachable s hs
  refine ⟨List.nodup_iff_count_le_one.mp hi name, ?_, ?_⟩
  · intro hmem
    have hc : name ∈ s.workers := (hiff name).mpr hmem
    simp [poolRun, hc]
  · intro hmem
    have hc : name ∉ s.workers := fun hx => hmem ((hiff name).mp hx)
    simp [poolRun, hc]

/-- C9 witness: the state after one dispatch on a fresh pool. -/
theorem podWorkers_at_most_one_witness :
    (PoolState.mk ["a"] ["a"]).inflight.count "a" ≤ 1 ∧
    ("a" ∈ (PoolState.mk ["a"] ["a"]).inflight →
      poolRun ⟨["a"], ["a"]⟩ "a" = ⟨["a"], ["a"]⟩) ∧
    ("a" ∉ (PoolState.mk ["a"] ["a"]).inflight →
      poolRun ⟨["a"], ["a"]⟩ "a" = ⟨["a", "a"], ["a", "a"]⟩) := by
  have h := podWorkers_at_most_one (poolRun ⟨[], []⟩ "a")
    (Relation.ReflTransGen.single (PoolStep.run ⟨[], []⟩ "a")) "a"
  have h2 : poolRun ⟨[], []⟩ "a" = ⟨["a"], ["a"]⟩ := by simp [poolRun]
  rw [h2] at h
  exact h

/-! ## C6: GarbageCollectContainers -/

/-- Unfolding of the GC's per-group removal when collection is enabled. -/
theorem gc_removed_spec (minimumGCAge : Int) (maxContainerCount : Nat) (now : Int)
    (containers : List DockerContainer) (hmax : maxContainerCount ≠ 0) :
    GarbageCollectContainers minimumGCAge maxContainerCount now containers =
      (netUuids containers).flatMap
        (fun v =>
          if (netGroup containers v).length ≤ maxContainerCount then []
          else purgeOldest minimumGCAge maxContainerCount now (netGroup containers v)) := by
  have hb : (maxContainerCount == 0) = false := by simpa using hmax
  simp [GarbageCollectContainers, hb]

/-- Membership in the removed ids, per group. -/
theorem mem_gc_removed (minimumGCAge : Int) (maxContainerCount : Nat) (now : Int)
    (containers : List DockerContainer) (hmax : maxContainerCount ≠ 0) (x : String) :
    x ∈ GarbageCollectContainers minimumGCAge maxContainerCount now containers ↔
      ∃ v ∈ netUuids containers,
        ¬ (netGroup containers v).length ≤ maxContainerCount ∧
        x ∈ purgeOldest minimumGCAge maxContainerCount now (netGroup containers v) := by
  rw [gc_removed_spec minimumGCAge maxContainerCount now containers hmax, List.mem_flatMap]
  constructor
  · rintro ⟨v, hv, hx⟩
    by_cases hlen : (netGroup containers v).length ≤ maxContainerCount
    · simp [hlen] at hx
    · exact ⟨v, hv, hlen, by simpa [hlen] using hx⟩
  · rintro ⟨v, hv, hlen, hx⟩
    exact ⟨v, hv, by simpa [hlen] using hx⟩

/-- An id removed by `purgeOldest` belongs to a GC-eligible container of the
group. -/
theorem mem_purgeOldest (minimumGCAge : Int) (maxContainerCount : Nat) (now : Int)
    (group : List DockerContainer) (x : String)
    (hx : x ∈ purgeOldest minimumGCAge maxContainerCount now group) :
    ∃ c, c ∈ group ∧ c.id = x ∧ gcEligible minimumGCAge now c = true := by
  simp only [purgeOldest, List.length_insertionSort] at hx
  by_cases hlen :
      (group.filter (gcEligible minimumGCAge now)).length ≤ maxContainerCount
  · rw [if_pos hlen] at hx
    simp at hx
  · rw [if_neg hlen, List.mem_map] at hx
    obtain ⟨c, hcd, hcid⟩ := hx
    have hcs : c ∈ (group.filter (gcEligible minimumGCAge now)).insertionSort byCreatedDesc :=
      List.drop_subset _ _ hcd
    have hcf : c ∈ group.filter (gcEligible minimumGCAge now) :=
      (List.perm_insertionSort byCreatedDesc _).mem_iff.mp hcs
    rw [List.mem_filter] at hcf
    exact ⟨c, hcf.1, hcid, hcf.2⟩

/-- A container of a net group witnesses its uuid among the group keys. -/
theorem mem_netUuids_of_mem_netGroup (containers : List DockerContainer)
    (u : String) (c : DockerContainer) (hc : c ∈ netGroup containers u) :
    u ∈ netUuids containers := by
  rw [netGroup, List.mem_filter, Bool.and_eq_true, beq_iff_eq, beq_iff_eq] at hc
  rw [netUuids, List.mem_dedup, List.mem_map]
  refine ⟨c, ?_, hc.2.2⟩
  rw [List.mem_filter, beq_iff_eq]
  exact ⟨hc.1, hc.2.1⟩

/-- Identification of a removed container under distinct ids: the container is
a net container of an over-long group, it is GC-eligible, and its id was
dropped by `purgeOldest` on its own group. -/
theorem gc_removed_container (minimumGCAge : Int) (maxContainerCount : Nat) (now : Int)
    (containers : List DockerContainer) (hmax : maxContainerCount ≠ 0)
    (hids : (containers.map (fun c => c.id)).Nodup)
    (c : DockerContainer) (hc : c ∈ containers)
    (hcid : c.id ∈ GarbageCollectContainers minimumGCAge maxContainerCount now containers) :
    c.ctrName = networkContainerName ∧ gcEligible minimumGCAge now c = true ∧
    ¬ (netGroup containers c.uuid).length ≤ maxContainerCount ∧
    c.id ∈ purgeOldest minimumGCAge maxContainerCount now (netGroup containers c.uuid) := by
  rw [mem_gc_removed minimumGCAge maxContainerCount now containers hmax] at hcid
  obtain ⟨v, hv, hlen, hx⟩ := hcid
  obtain ⟨c', hc'g, hc'id, hc'el⟩ :=
    mem_purgeOldest minimumGCAge maxContainerCount now (netGroup containers v) c.id hx
  have hc'c : c' ∈ containers := List.filter_subset' _ hc'g
  have hcc : c' = c := List.inj_on_of_nodup_map hids hc'c hc hc'id
  subst hcc
  rw [netGroup, List.mem_filter, Bool.and_eq_true, beq_iff_eq, beq_iff_eq] at hc'g
  rw [hc'g.2.2]
  exact ⟨hc'g.2.1, hc'el, hlen, hx⟩

/-- A GC-eligible group member whose id survives lies among the newest
`maxContainerCount` entries of the group's eligibility sort (provided anything
was removed from some group at all — stated for the group's own sort). -/
theorem gc_kept_mem_take (minimumGCAge : Int) (maxContainerCount : Nat) (now : Int)
    (containers : List DockerContainer) (hmax : maxContainerCount ≠ 0)
    (u : String) (d : DockerContainer)
    (hdE : d ∈ (netGroup containers u).filter (gcEligible minimumGCAge now))
    (hdkept : d.id ∉ GarbageCollectContainers minimumGCAge maxContainerCount now containers)
    (hglen : ¬ (netGroup containers u).length ≤ maxContainerCount)
    (hslen : ¬ ((netGroup containers u).filter
        (gcEligible minimumGCAge now)).length ≤ maxContainerCount) :
    d ∈ (((netGroup containers u).filter
        (gcEligible minimumGCAge now)).insertionSort byCreatedDesc).take maxContainerCount := by
  have hdS : d ∈ ((netGroup containers u).filter
      (gcEligible minimumGCAge now)).insertionSort byCreatedDesc :=
    (List.perm_insertionSort byCreatedDesc _).mem_iff.mpr hdE
  rw [← List.take_append_drop maxContainerCount
    (((netGroup containers u).filter (gcEligible minimumGCAge now)).insertionSort byCreatedDesc),
    List.mem_append] at hdS
  rcases hdS with h | h
  · exact h
  · exfalso
    apply hdkept
    rw [mem_gc_removed minimumGCAge maxContainerCount now containers hmax]
    refine ⟨u, mem_netUuids_of_mem_netGroup containers u d (List.mem_filter.mp hdE).1,
      hglen, ?_⟩
    simp only [purgeOldest, List.length_insertionSort]
    rw [if_neg hslen]
    exact List.mem_map_of_mem _ h

/-- C6 counterexample: with `maxContainerCount = 1`, a (uuid, "net") group of
three containers — two Running, one eligible — keeps all three containers:
nothing is removed and more than `maxContainerCount` net containers remain. -/
theorem gc_retention_counterexample :
    GarbageCollectContainers 0 1 100
        [⟨"id1", "u", "net", true, 0, 10⟩, ⟨"id2", "u", "net", true, 0, 20⟩,
         ⟨"id3", "u", "net", false, 1, 5⟩] = [] ∧
    (netGroup
        [⟨"id1", "u", "net", true, 0, 10⟩, ⟨"id2", "u", "net", true, 0, 20⟩,
         ⟨"id3", "u", "net", false, 1, 5⟩] "u").length = 3 ∧
    (remainingAfterGC
        (GarbageCollectContainers 0 1 100
          [⟨"id1", "u", "net", true, 0, 10⟩, ⟨"id2", "u", "net", true, 0, 20⟩,
           ⟨"id3", "u", "net", false, 1, 5⟩])
        (netGroup
          [⟨"id1", "u", "net", true, 0, 10⟩, ⟨"id2", "u", "net", true, 0, 20⟩,
           ⟨"id3", "u", "net", false, 1, 5⟩] "u")).length = 3 := by
  decide

/-- C6 (amended): with collection enabled and distinct container ids, only
GC-eligible (non-Running, older than `minimumGCAge`) net containers are ever
removed; for every (uuid, "net") group at most `maxContainerCount` GC-eligible
containers remain; and the removed containers of a group are the oldest
eligible ones by `Created` — every removed container is no newer than every
kept eligible one. -/
theorem gc_retention (minimumGCAge : Int) (maxContainerCount : Nat) (now : Int)
    (containers : List DockerContainer) (u : String)
    (hmax : maxContainerCount ≠ 0)
    (hids : (containers.map (fun c => c.id)).Nodup) :
    (∀ c ∈ containers,
      c.id ∈ GarbageCollectContainers minimumGCAge maxContainerCount now containers →
      c.ctrName = networkContainerName ∧ gcEligible minimumGCAge now c = true) ∧
    ((remainingAfterGC
        (GarbageCollectContainers minimumGCAge maxContainerCount now containers)
        (netGroup containers u)).filter (gcEligible minimumGCAge now)).length
      ≤ maxContainerCount ∧
    (∀ c ∈ netGroup containers u,
      c.id ∈ GarbageCollectContainers minimumGCAge maxContainerCount now containers →
      ∀ d ∈ netGroup containers u, gcEligible minimumGCAge now d = true →
      d.id ∉ GarbageCollectContainers minimumGCAge maxContainerCount now containers →
      c.created ≤ d.created) := by
  have hnodup : containers.Nodup := hids.of_map
  have hGnodup : (netGroup containers u).Nodup := hnodup.filter _
  have hEnodup : ((netGroup containers u).filter (gcEligible minimumGCAge now)).Nodup :=
    hGnodup.filter _
  refine ⟨?_, ?_, ?_⟩
  · intro c hc hcid
    obtain ⟨h1, h2, -, -⟩ :=
      gc_removed_container minimumGCAge maxContainerCount now containers hmax hids c hc hcid
    exact ⟨h1, h2⟩
  · -- retention bound
    have hcomm :
        (remainingAfterGC
            (GarbageCollectContainers minimumGCAge maxContainerCount now containers)
            (netGroup containers u)).filter (gcEligible minimumGCAge now) =
          ((netGroup containers u).filter (gcEligible minimumGCAge now)).filter
            (fun c =>
              !((GarbageCollectContainers minimumGCAge maxContainerCount now
                containers).contains c.id)) := by
      rw [remainingAfterGC, List.filter_filter, List.filter_filter]
      congr 1
      funext c
      rw [Bool.and_comm]
    rw [hcomm]
    by_cases hglen : (netGroup containers u).length ≤ maxContainerCount
    · calc (((netGroup containers u).filter (gcEligible minimumGCAge now)).filter _).length
          ≤ ((netGroup containers u).filter (gcEligible minimumGCAge now)).length :=
            List.length_filter_le _ _
        _ ≤ (netGroup containers u).length := List.length_filter_le _ _
        _ ≤ maxContainerCount := hglen
    · by_cases hslen :
          ((netGroup containers u).filter (gcEligible minimumGCAge now)).length ≤
            maxContainerCount
      · calc (((netGroup containers u).filter (gcEligible minimumGCAge now)).filter _).length
            ≤ ((netGroup containers u).filter (gcEligible minimumGCAge now)).length :=
              List.length_filter_le _ _
          _ ≤ maxContainerCount := hslen
      · have hsub :
            ((netGroup containers u).filter (gcEligible minimumGCAge now)).filter
              (fun c =>
                !((GarbageCollectContainers minimumGCAge maxContainerCount now
                  containers).contains c.id)) ⊆
              (((netGroup containers u).filter
                (gcEligible minimumGCAge now)).insertionSort byCreatedDesc).take
                maxContainerCount := by
          intro d hd
          rw [List.mem_filter] at hd
          refine gc_kept_mem_take minimumGCAge maxContainerCount now containers hmax u d
            hd.1 ?_ hglen hslen
          simpa using hd.2
        have hRnodup :
            (((netGroup containers u).filter (gcEligible minimumGCAge now)).filter
              (fun c =>
                !((GarbageCollectContainers minimumGCAge maxContainerCount now
                  containers).contains c.id))).Nodup := hEnodup.filter _
        calc (((netGroup containers u).filter (gcEligible minimumGCAge now)).filter _).length
            ≤ ((((netGroup containers u).filter
                (gcEligible minimumGCAge now)).insertionSort byCreatedDesc).take
                maxContainerCount).length :=
              (List.subperm_of_subset hRnodup hsub).length_le
          _ ≤ maxContainerCount := by
              rw [List.length_take]
              exact Nat.min_le_left _ _
  · -- oldest-first removal
    intro c hc hcid d hd hdel hdkept
    obtain ⟨-, -, hglen', hx⟩ :=
      gc_removed_container minimumGCAge maxContainerCount now containers hmax hids c
        (List.filter_subset' _ hc) hcid
    have hcu : c.uuid = u := by
      rw [netGroup, List.mem_filter, Bool.and_eq_true, beq_iff_eq, beq_iff_eq] at hc
      exact hc.2.2
    rw [hcu] at hglen' hx
    -- c itself sits among the dropped entries of the sort
    simp only [purgeOldest, List.length_insertionSort] at hx
    by_cases hslen :
        ((netGroup containers u).filter (gcEligible minimumGCAge now)).length ≤
          maxContainerCount
    · rw [if_pos hslen] at hx
      simp at hx
    · rw [if_neg hslen, List.mem_map] at hx
      obtain ⟨c', hc'd, hc'id⟩ := hx
      have hc'c : c' ∈ containers := by
        have : c' ∈ (netGroup containers u).filter (gcEligible minimumGCAge now) :=
          (List.perm_insertionSort byCreatedDesc _).mem_iff.mp
            (List.drop_subset _ _ hc'd)
        exact List.filter_subset' _ (List.filter_subset' _ this)
      have hcc : c' = c :=
        List.inj_on_of_nodup_map hids hc'c (List.filter_subset' _ hc) hc'id
      subst hcc
      have hdtake := gc_kept_mem_take minimumGCAge maxContainerCount now containers hmax u d
        (List.mem_filter.mpr ⟨hd, hdel⟩) hdkept hglen' hslen
      exact (List.sorted_insertionSort byCreatedDesc _).rel_of_mem_take_of_mem_drop
        hdtake hc'd

/-- C6 witness: a group of three eligible net containers with
`maxContainerCount = 2` removes exactly the oldest one. -/
theorem gc_retention_witness :
    ((remainingAfterGC
        (GarbageCollectContainers 0 2 100
          [⟨"id1", "u", "net", false, 1, 10⟩, ⟨"id2", "u", "net", false, 1, 20⟩,
           ⟨"id3", "u", "net", false, 1, 5⟩])
        (netGroup
          [⟨"id1", "u", "net", false, 1, 10⟩, ⟨"id2", "u", "net", false, 1, 20⟩,
           ⟨"id3", "u", "net", false, 1, 5⟩] "u")).filter (gcEligible 0 100)).length ≤ 2 :=
  (gc_retention 0 2 100
    [⟨"id1", "u", "net", false, 1, 10⟩, ⟨"id2", "u", "net", false, 1, 20⟩,
     ⟨"id3", "u", "net", false, 1, 5⟩] "u" (by decide) (by decide)).2.1

/-! ## C1: numaCpuSelect -/

/-- A NUMA node's free cores form a sublist of all free cores. -/
theorem get0BitOffsNumaAt_sublist (bm : NumaBitmap) (numaCount i : Nat) :
    List.Sublist (bm.get0BitOffsNumaAt numaCount i) bm.get0BitOffs := by
  rw [NumaBitmap.get0BitOffsNumaAt, NumaBitmap.get0BitOffs]
  apply List.monotone_filter_right
  intro a ha
  simp only [Bool.and_eq_true] at ha
  exact ha.2

/-- A minion with a NUMA-coherent fit offers enough free cores overall. -/
theorem nodeFitsAny_of_fitsNuma (allPods : List Pod) (reqCore : Int) (m : Minion)
    (h : nodeFitsNuma allPods reqCore m = true) : nodeFitsAny allPods reqCore m = true := by
  rw [nodeFitsNuma, Option.isSome_iff_exists] at h
  obtain ⟨i, hi⟩ := h
  have hp := List.find?_some hi
  rw [decide_eq_true_eq] at hp
  have hlen :=
    (get0BitOffsNumaAt_sublist (nodeCpuMap allPods m) (nodeNumaCount m) i).length_le
  rw [nodeFitsAny, decide_eq_true_eq, nodeFreeCores]
  omega

/-- On an any-fitting minion the fallback set has exactly `reqCore` entries. -/
theorem anyChoice_length (allPods : List Pod) (reqCore : Int) (m : Minion)
    (h : nodeFitsAny allPods reqCore m = true) :
    (anyChoice allPods reqCore m).length = reqCore.toNat := by
  rw [nodeFitsAny, decide_eq_true_eq] at h
  rw [anyChoice, List.length_map, List.length_take]
  omega

/-- On a NUMA-fitting minion the coherent set has exactly `reqCore` entries,
drawn from the free cores of its first fitting NUMA node. -/
theorem numaChoice_spec (allPods : List Pod) (reqCore : Int) (m : Minion) (i : Nat)
    (hi : nodeFitsNumaIdx? allPods reqCore m = some i) :
    (numaChoice allPods reqCore m).length = reqCore.toNat ∧
    ∀ s ∈ numaChoice allPods reqCore m,
      ∃ c ∈ (nodeCpuMap allPods m).get0BitOffsNumaAt (nodeNumaCount m) i,
        s = toString c := by
  have hp := List.find?_some hi
  rw [decide_eq_true_eq] at hp
  rw [numaChoice, hi]
  constructor
  · rw [List.length_map, List.length_take]
    omega
  · intro s hs
    rw [List.mem_map] at hs
    obtain ⟨c, hc, hcs⟩ := hs
    exact ⟨c, List.take_subset _ _ hc, hcs.symm⟩

/-- With a positive request, a NUMA-fitting minion yields a non-empty coherent
set. -/
theorem numaChoice_ne_nil (allPods : List Pod) (reqCore : Int) (m : Minion)
    (hreq : 0 < reqCore) (h : nodeFitsNuma allPods reqCore m = true) :
    numaChoice allPods reqCore m ≠ [] := by
  rw [nodeFitsNuma, Option.isSome_iff_exists] at h
  obtain ⟨i, hi⟩ := h
  have hlen := (numaChoice_spec allPods reqCore m i hi).1
  intro hnil
  rw [hnil] at hlen
  simp only [List.length_nil] at hlen
  omega

/-- The scan body skips a minion with too few free cores. -/
theorem numaSelectStep_skip (allPods : List Pod) (reqCore : Int) (index : Int)
    (m : Minion) (st : NumaSelSt)
    (h : nodeFitsAny allPods reqCore m = false) :
    numaSelectStep allPods reqCore index m st = .ok st := by
  rw [nodeFitsAny, decide_eq_false_iff_not, nodeFreeCores] at h
  have hlt : ((nodeCpuMap allPods m).get0BitOffs.length : Int) < reqCore := by omega
  simp only [numaSelectStep]
  rw [if_pos hlt]

/-- The scan body on an any-fitting minion whose first fitting NUMA node is
`i`: the fallback is overwritten and the NUMA set and index are recorded. -/
theorem numaSelectStep_numa (allPods : List Pod) (reqCore : Int) (index : Int)
    (m : Minion) (st : NumaSelSt)
    (hfit : nodeFitsAny allPods reqCore m = true)
    (hnz : goUint (nodeCpuNodeNum m) ≠ 0)
    (i : Nat) (hidx : nodeFitsNumaIdx? allPods reqCore m = some i) :
    numaSelectStep allPods reqCore index m st =
      .ok { numaCpuSet := st.numaCpuSet ++
              (((nodeCpuMap allPods m).get0BitOffsNumaAt (nodeNumaCount m) i).take
                reqCore.toNat).map (fun o => toString o)
            numaSelectMinion := index
            noNumaCpuSet := anyChoice allPods reqCore m
            noNumaSelectMinion := index } := by
  rw [nodeFitsAny, decide_eq_true_eq, nodeFreeCores] at hfit
  have hnlt : ¬ ((nodeCpuMap allPods m).get0BitOffs.length : Int) < reqCore := by omega
  have hnz' : ¬ (goUint (nodeCpuNodeNum m) == 0) = true := by simpa using hnz
  rw [nodeFitsNumaIdx?, nodeNumaCount] at hidx
  simp only [numaSelectStep, nodeNumaCount, anyChoice, nodeFreeCores]
  rw [if_neg hnlt, if_neg hnz', hidx]

/-- The scan body on an any-fitting minion with no fitting NUMA node: only the
fallback is overwritten. -/
theorem numaSelectStep_fallback (allPods : List Pod) (reqCore : Int) (index : Int)
    (m : Minion) (st : NumaSelSt)
    (hfit : nodeFitsAny allPods reqCore m = true)
    (hnz : goUint (nodeCpuNodeNum m) ≠ 0)
    (hidx : nodeFitsNumaIdx? allPods reqCore m = none) :
    numaSelectStep allPods reqCore index m st =
      .ok { st with noNumaCpuSet := anyChoice allPods reqCore m,
                    noNumaSelectMinion := index } := by
  rw [nodeFitsAny, decide_eq_true_eq, nodeFreeCores] at hfit
  have hnlt : ¬ ((nodeCpuMap allPods m).get0BitOffs.length : Int) < reqCore := by omega
  have hnz' : ¬ (goUint (nodeCpuNodeNum m) == 0) = true := by simpa using hnz
  rw [nodeFitsNumaIdx?, nodeNumaCount] at hidx
  simp only [numaSelectStep, nodeNumaCount, anyChoice, nodeFreeCores]
  rw [if_neg hnlt, if_neg hnz', hidx]

/-- Characterization of the minion scan: it returns at the first NUMA-fitting
minion with that minion's coherent set, or runs to the end holding the fallback
of the last any-fitting minion (the fallback state is overwritten at every
fitting minion). -/
theorem numaSelectLoop_spec (allPods : List Pod) (reqCore : Int) (hreq : 0 < reqCore)
    (nodes : List Minion) :
    ∀ (idx0 : Int) (st : NumaSelSt),
    (∀ m ∈ nodes, goUint (nodeCpuNodeNum m) ≠ 0) →
    st.numaCpuSet = [] →
    (∀ k, firstIdxOf (nodeFitsNuma allPods reqCore) nodes = some k →
      ∀ m, nodes.get? k = some m →
      numaSelectLoop allPods reqCore nodes idx0 st =
        .ok { numaCpuSet := numaChoice allPods reqCore m
              numaSelectMinion := idx0 + (k : Int)
              noNumaCpuSet := anyChoice allPods reqCore m
              noNumaSelectMinion := idx0 + (k : Int) }) ∧
    (firstIdxOf (nodeFitsNuma allPods reqCore) nodes = none →
      (∀ j, lastIdxOf (nodeFitsAny allPods reqCore) nodes = some j →
        ∀ m, nodes.get? j = some m →
        numaSelectLoop allPods reqCore nodes idx0 st =
          .ok { st with noNumaCpuSet := anyChoice allPods reqCore m,
                        noNumaSelectMinion := idx0 + (j : Int) }) ∧
      (lastIdxOf (nodeFitsAny allPods reqCore) nodes = none →
        numaSelectLoop allPods reqCore nodes idx0 st = .ok st)) := by
  induction nodes with
  | nil =>
    intro idx0 st hnz hst
    refine ⟨?_, fun _ => ⟨?_, fun _ => rfl⟩⟩
    · intro k hk
      simp [firstIdxOf] at hk
    · intro j hj
      simp [lastIdxOf] at hj
  | cons m rest ih =>
    intro idx0 st hnz hst
    have hmnz : goUint (nodeCpuNodeNum m) ≠ 0 := hnz m (List.mem_cons_self m rest)
    have hrest : ∀ x ∈ rest, goUint (nodeCpuNodeNum x) ≠ 0 :=
      fun x hx => hnz x (List.mem_cons_of_mem m hx)
    by_cases hfit : nodeFitsAny allPods reqCore m = true
    · cases hni : nodeFitsNumaIdx? allPods reqCore m with
      | some i =>
        have hnumafit : nodeFitsNuma allPods reqCore m = true := by
          rw [nodeFitsNuma, hni]
          rfl
        have hstep := numaSelectStep_numa allPods reqCore idx0 m st hfit hmnz i hni
        have hchoice : st.numaCpuSet ++
            (((nodeCpuMap allPods m).get0BitOffsNumaAt (nodeNumaCount m) i).take
              reqCore.toNat).map (fun o => toString o) = numaChoice allPods reqCore m := by
          rw [hst, List.nil_append, numaChoice, hni]
        rw [hchoice] at hstep
        have hne : numaChoice allPods reqCore m ≠ [] :=
          numaChoice_ne_nil allPods reqCore m hreq hnumafit
        have hempty : (numaChoice allPods reqCore m).isEmpty = false := by
          cases hnc : numaChoice allPods reqCore m
          · exact absurd hnc hne
          · rfl
        have hloop : numaSelectLoop allPods reqCore (m :: rest) idx0 st =
            .ok { numaCpuSet := numaChoice allPods reqCore m
                  numaSelectMinion := idx0
                  noNumaCpuSet := anyChoice allPods reqCore m
                  noNumaSelectMinion := idx0 } := by
          simp only [numaSelectLoop, hstep, hempty, Bool.false_eq_true, if_false]
        refine ⟨?_, ?_⟩
        · intro k hk m' hm'
          simp only [firstIdxOf, hnumafit, if_true] at hk
          cases hk
          rw [List.get?_cons_zero] at hm'
          cases hm'
          simpa using hloop
        · intro hnone
          simp [firstIdxOf, hnumafit] at hnone
      | none =>
        have hnumafit : nodeFitsNuma allPods reqCore m = false := by
          rw [nodeFitsNuma, hni]
          rfl
        have hstep := numaSelectStep_fallback allPods reqCore idx0 m st hfit hmnz hni
        have hloop : numaSelectLoop allPods reqCore (m :: rest) idx0 st =
            numaSelectLoop allPods reqCore rest (idx0 + 1)
              { st with noNumaCpuSet := anyChoice allPods reqCore m,
                        noNumaSelectMinion := idx0 } := by
          simp only [numaSelectLoop, hstep, hst, List.isEmpty_nil, if_true]
        obtain ⟨ih1, ih2⟩ := ih (idx0 + 1)
          { st with noNumaCpuSet := anyChoice allPods reqCore m,
                    noNumaSelectMinion := idx0 } hrest (by simpa using hst)
        refine ⟨?_, ?_⟩
        · intro k hk m' hm'
          simp only [firstIdxOf, hnumafit, Bool.false_eq_true, if_false,
            Option.map_eq_some'] at hk
          obtain ⟨k', hk', rfl⟩ := hk
          rw [List.get?_cons_succ] at hm'
          have hres := ih1 k' hk' m' hm'
          have harith : idx0 + 1 + (k' : Int) = idx0 + ((k' + 1 : Nat) : Int) := by
            push_cast
            ring
          rw [harith] at hres
          rw [hloop]
          exact hres
        · intro hnone
          have hrnone : firstIdxOf (nodeFitsNuma allPods reqCore) rest = none := by
            simpa [firstIdxOf, hnumafit] using hnone
          obtain ⟨ih21, ih22⟩ := ih2 hrnone
          refine ⟨?_, ?_⟩
          · intro j hj m' hm'
            cases hlr : lastIdxOf (nodeFitsAny allPods reqCore) rest with
            | some j' =>
              simp only [lastIdxOf, hlr, Option.some.injEq] at hj
              subst hj
              rw [List.get?_cons_succ] at hm'
              have hres := ih21 j' hlr m' hm'
              have harith : idx0 + 1 + (j' : Int) = idx0 + ((j' + 1 : Nat) : Int) := by
                push_cast
                ring
              rw [harith] at hres
              rw [hloop]
              exact hres
            | none =>
              simp only [lastIdxOf, hlr, hfit, if_true, Option.some.injEq] at hj
              subst hj
              rw [List.get?_cons_zero] at hm'
              cases hm'
              have hres := ih22 hlr
              rw [hloop, hres]
              simp
          · intro hn
            exfalso
            cases hlr : lastIdxOf (nodeFitsAny allPods reqCore) rest with
            | some j' => simp [lastIdxOf, hlr] at hn
            | none => simp [lastIdxOf, hlr, hfit] at hn
    · have hfit' : nodeFitsAny allPods reqCore m = false := by
        simpa using hfit
      have hnumafit : nodeFitsNuma allPods reqCore m = false := by
        by_contra hx
        rw [Bool.not_eq_false] at hx
        rw [nodeFitsAny_of_fitsNuma allPods reqCore m hx] at hfit'
        exact absurd hfit' (by simp)
      have hstep := numaSelectStep_skip allPods reqCore idx0 m st hfit'
      have hloop : numaSelectLoop allPods reqCore (m :: rest) idx0 st =
          numaSelectLoop allPods reqCore rest (idx0 + 1) st := by
        simp only [numaSelectLoop, hstep, hst, List.isEmpty_nil, if_true]
      obtain ⟨ih1, ih2⟩ := ih (idx0 + 1) st hrest hst
      refine ⟨?_, ?_⟩
      · intro k hk m' hm'
        simp only [firstIdxOf, hnumafit, Bool.false_eq_true, if_false,
          Option.map_eq_some'] at hk
        obtain ⟨k', hk', rfl⟩ := hk
        rw [List.get?_cons_succ] at hm'
        have hres := ih1 k' hk' m' hm'
        have harith : idx0 + 1 + (k' : Int) = idx0 + ((k' + 1 : Nat) : Int) := by
          push_cast
          ring
        rw [harith] at hres
        rw [hloop]
        exact hres
      · intro hnone
        have hrnone : firstIdxOf (nodeFitsNuma allPods reqCore) rest = none := by
          simpa [firstIdxOf, hnumafit] using hnone
        obtain ⟨ih21, ih22⟩ := ih2 hrnone
        refine ⟨?_, ?_⟩
        · intro j hj m' hm'
          cases hlr : lastIdxOf (nodeFitsAny allPods reqCore) rest with
          | some j' =>
            simp only [lastIdxOf, hlr, Option.some.injEq] at hj
            subst hj
            rw [List.get?_cons_succ] at hm'
            have hres := ih21 j' hlr m' hm'
            have harith : idx0 + 1 + (j' : Int) = idx0 + ((j' + 1 : Nat) : Int) := by
              push_cast
              ring
            rw [harith] at hres
            rw [hloop]
            exact hres
          | none =>
            simp [lastIdxOf, hlr, hfit'] at hj
        · intro hn
          rw [hloop]
          apply ih22
          cases hlr : lastIdxOf (nodeFitsAny allPods reqCore) rest with
          | some j' => simp [lastIdxOf, hlr] at hn
          | none => rfl

/-- The element at the first satisfying index satisfies the predicate. -/
theorem firstIdxOf_some_prop (p : α → Bool) (l : List α) (k : Nat) (a : α)
    (h : firstIdxOf p l = some k) (ha : l.get? k = some a) : p a = true := by
  induction l generalizing k with
  | nil => simp [firstIdxOf] at h
  | cons x xs ih =>
    by_cases hx : p x = true
    · simp only [firstIdxOf, hx, if_true] at h
      cases h
      rw [List.get?_cons_zero] at ha
      cases ha
      exact hx
    · have hx' : p x = false := by simpa using hx
      simp only [firstIdxOf, hx', Bool.false_eq_true, if_false, Option.map_eq_some'] at h
      obtain ⟨k', hk', rfl⟩ := h
      rw [List.get?_cons_succ] at ha
      exact ih k' hk' ha

/-- The element at the last satisfying index satisfies the predicate. -/
theorem lastIdxOf_some_prop (p : α → Bool) (l : List α) (k : Nat) (a : α)
    (h : lastIdxOf p l = some k) (ha : l.get? k = some a) : p a = true := by
  induction l generalizing k with
  | nil => simp [lastIdxOf] at h
  | cons x xs ih =>
    cases hlr : lastIdxOf p xs with
    | some k' =>
      simp only [lastIdxOf, hlr, Option.some.injEq] at h
      subst h
      rw [List.get?_cons_succ] at ha
      exact ih k' hlr ha
    | none =>
      by_cases hx : p x = true
      · simp only [lastIdxOf, hlr, hx, if_true, Option.some.injEq] at h
        subst h
        rw [List.get?_cons_zero] at ha
        cases ha
        exact hx
      · simp [lastIdxOf, hlr, hx] at h

/-- C1 (amended): for a pod with a positive summed Core request,
`numaCpuSelect` scans the nodes in order, marking as used the cores parsed from
existing pods' CpuSet strings, and returns the first node that offers `reqCore`
free cores inside a single NUMA node together with a NUMA-coherent set of
`reqCore` free core indices; if no scanned node is NUMA-coherent, it returns
the LAST node that offered `reqCore` free cores across any NUMA nodes (the
fallback is overwritten at every fitting node, not remembered from the first),
with that node's first `reqCore` free core indices. -/
theorem numaCpuSelect_spec (pod : Pod) (allPods : List Pod) (nodes : List Minion)
    (hreq : 0 < reqCoreOf pod)
    (hnuma : ∀ m ∈ nodes, goUint (nodeCpuNodeNum m) ≠ 0) :
    (∀ k, firstIdxOf (nodeFitsNuma allPods (reqCoreOf pod)) nodes = some k →
      ∀ m, nodes.get? k = some m →
      numaCpuSelect pod allPods nodes =
        .ok ((k : Int), numaChoice allPods (reqCoreOf pod) m) ∧
      (numaChoice allPods (reqCoreOf pod) m).length = (reqCoreOf pod).toNat ∧
      ∃ i, nodeFitsNumaIdx? allPods (reqCoreOf pod) m = some i ∧
        ∀ s ∈ numaChoice allPods (reqCoreOf pod) m,
          ∃ c ∈ (nodeCpuMap allPods m).get0BitOffsNumaAt (nodeNumaCount m) i,
            s = toString c) ∧
    (firstIdxOf (nodeFitsNuma allPods (reqCoreOf pod)) nodes = none →
      ∀ j, lastIdxOf (nodeFitsAny allPods (reqCoreOf pod)) nodes = some j →
      ∀ m, nodes.get? j = some m →
      numaCpuSelect pod allPods nodes =
        .ok ((j : Int), anyChoice allPods (reqCoreOf pod) m) ∧
      (anyChoice allPods (reqCoreOf pod) m).length = (reqCoreOf pod).toNat) := by
  have hz : (reqCoreOf pod == 0) = false := by
    simp only [beq_eq_false_iff_ne, ne_eq]
    omega
  obtain ⟨l1, l2⟩ :=
    numaSelectLoop_spec allPods (reqCoreOf pod) hreq nodes 0 ⟨[], -1, [], -1⟩ hnuma rfl
  refine ⟨?_, ?_⟩
  · intro k hk m hm
    have hkfit : nodeFitsNuma allPods (reqCoreOf pod) m = true :=
      firstIdxOf_some_prop _ nodes k m hk hm
    have hkfit' := hkfit
    rw [nodeFitsNuma, Option.isSome_iff_exists] at hkfit'
    obtain ⟨i, hi⟩ := hkfit'
    have hres := l1 k hk m hm
    have hne := numaChoice_ne_nil allPods (reqCoreOf pod) m hreq hkfit
    have hempty : (numaChoice allPods (reqCoreOf pod) m).isEmpty = false := by
      cases hnc : numaChoice allPods (reqCoreOf pod) m
      · exact absurd hnc hne
      · rfl
    refine ⟨?_, (numaChoice_spec allPods (reqCoreOf pod) m i hi).1,
      i, hi, (numaChoice_spec allPods (reqCoreOf pod) m i hi).2⟩
    simp only [numaCpuSelect, hz, Bool.false_eq_true, if_false, hres, hempty]
    simp
  · intro hnone j hj m hm
    have hjfit : nodeFitsAny allPods (reqCoreOf pod) m = true :=
      lastIdxOf_some_prop _ nodes j m hj hm
    have hres := (l2 hnone).1 j hj m hm
    refine ⟨?_, anyChoice_length allPods (reqCoreOf pod) m hjfit⟩
    simp only [numaCpuSelect, hz, Bool.false_eq_true, if_false, hres]
    simp

/-- The 4-core, 2-NUMA-node capacity used by the C1 scenarios. -/
def cap42 : Capacity := ⟨none, none, some 4, some 2, none⟩

/-- C1 counterexample: two nodes, each with free cores {0, 3} split across the
two NUMA halves (cores 1 and 2 in use), and a pod asking 2 cores.  No node is
NUMA-coherent and both offer 2 free cores, yet `numaCpuSelect` returns index 1
— the last fitting node — where the claim requires the first (index 0). -/
theorem numaCpuSelect_last_fallback_counterexample :
    numaCpuSelect (fixPendingPod 2 "bridge" [] 0)
        [fixPodOn "a" "1,2" "", fixPodOn "b" "1,2" ""]
        [fixMinion "a" cap42 [] [], fixMinion "b" cap42 [] []] = .ok (1, ["0", "3"]) ∧
    firstIdxOf
        (nodeFitsNuma [fixPodOn "a" "1,2" "", fixPodOn "b" "1,2" ""]
          (reqCoreOf (fixPendingPod 2 "bridge" [] 0)))
        [fixMinion "a" cap42 [] [], fixMinion "b" cap42 [] []] = none ∧
    firstIdxOf
        (nodeFitsAny [fixPodOn "a" "1,2" "", fixPodOn "b" "1,2" ""]
          (reqCoreOf (fixPendingPod 2 "bridge" [] 0)))
        [fixMinion "a" cap42 [] [], fixMinion "b" cap42 [] []] = some 0 := by
  refine ⟨by decide, by decide, by decide⟩

/-- C1 witness: scenario S2 — node a's free cores are split 1/1 across NUMA
halves while node b offers both inside one half; node b (index 1) is selected
with its coherent set. -/
theorem numaCpuSelect_spec_witness :
    numaCpuSelect (fixPendingPod 2 "bridge" [] 0)
        [fixPodOn "a" "1,2" "", fixPodOn "b" "0,1" ""]
        [fixMinion "a" cap42 [] [], fixMinion "b" cap42 [] []] =
      .ok ((1 : Int),
        numaChoice [fixPodOn "a" "1,2" "", fixPodOn "b" "0,1" ""]
          (reqCoreOf (fixPendingPod 2 "bridge" [] 0)) (fixMinion "b" cap42 [] [])) ∧
    (numaChoice [fixPodOn "a" "1,2" "", fixPodOn "b" "0,1" ""]
        (reqCoreOf (fixPendingPod 2 "bridge" [] 0)) (fixMinion "b" cap42 [] [])).length =
      (reqCoreOf (fixPendingPod 2 "bridge" [] 0)).toNat ∧
    ∃ i, nodeFitsNumaIdx? [fixPodOn "a" "1,2" "", fixPodOn "b" "0,1" ""]
        (reqCoreOf (fixPendingPod 2 "bridge" [] 0)) (fixMinion "b" cap42 [] []) = some i ∧
      ∀ s ∈ numaChoice [fixPodOn "a" "1,2" "", fixPodOn "b" "0,1" ""]
          (reqCoreOf (fixPendingPod 2 "bridge" [] 0)) (fixMinion "b" cap42 [] []),
        ∃ c ∈ (nodeCpuMap [fixPodOn "a" "1,2" "", fixPodOn "b" "0,1" ""]
            (fixMinion "b" cap42 [] [])).get0BitOffsNumaAt
            (nodeNumaCount (fixMinion "b" cap42 [] [])) i,
          s = toString c :=
  (numaCpuSelect_spec (fixPendingPod 2 "bridge" [] 0)
      [fixPodOn "a" "1,2" "", fixPodOn "b" "0,1" ""]
      [fixMinion "a" cap42 [] [], fixMinion "b" cap42 [] []]
      (by decide) (by decide)).1 1 (by decide) (fixMinion "b" cap42 [] []) rfl

end K8s
